import Mathlib

/-!
Verification of the MergedPackager ad-insertion core against its specification.

The development shallowly embeds three components of the source tree:
* the SCTE-35 section parser (`src/packager/media/formats/mp2t/es_parser_scte35.cc`
  together with the data layout in `scte35_types.h`),
* the TS private-section framer (`src/packager/media/formats/mp2t/ts_section_data.cc`),
* the cue alignment handler (`src/packager/media/chunking/cue_alignment_handler.cc`),
* the HLS media playlist writer (`src/packager/hls/base/media_playlist.cc`).

Machine integers are embedded as `Nat`/`Int` with explicit wrap-around where the
source can overflow, C `double` time values as `ℚ`, and fallible parses as
`Option`.  All definitions are executable so that concrete byte buffers can be
run through them.
-/

namespace Packager

/-! # Bit reader

Modelled from the spec: the repository's `BitReader` (`media/base/bit_reader.h`,
not part of the extracted sources) performs a "bit-packed parse in network
order": `ReadBits(n, out)` consumes the next `n` bits most-significant first and
fails when fewer than `n` bits remain, `SkipBytes` advances whole bytes, and
`bits_available()` returns the number of bits not yet consumed.  The buffer is
kept as the big-endian natural number of its bytes plus a bit cursor. -/

def bytesToNat (l : List Nat) : Nat :=
  l.foldl (fun a b => 256 * a + b % 256) 0

structure BitReader where
  data : Nat
  bits : Nat
  pos : Nat
  deriving DecidableEq, Repr, Inhabited

/-- Construct a bit reader over a byte buffer, cursor at the start. -/
def BitReader.ofBytes (buf : List Nat) : BitReader :=
  ⟨bytesToNat buf, 8 * buf.length, 0⟩

/-- Number of bits not yet consumed (`BitReader::bits_available`). -/
def BitReader.bits_available (r : BitReader) : Nat :=
  r.bits - r.pos

/-- Read `n` bits, most significant first (`BitReader::ReadBits`).  Fails when
fewer than `n` bits remain. -/
def readBits (r : BitReader) (n : Nat) : Option (Nat × BitReader) :=
  if r.pos + n ≤ r.bits then
    some ((r.data >>> (r.bits - (r.pos + n))) % 2 ^ n, ⟨r.data, r.bits, r.pos + n⟩)
  else
    none

/-- Skip `n` bytes (`BitReader::SkipBytes`).  The source passes an `int` that is
converted to the unsigned `size_t` parameter; a negative count becomes a huge
skip, which fails on any realistic buffer, so it is embedded as failure. -/
def skipBytes (r : BitReader) (n : Int) : Option BitReader :=
  if n < 0 then none
  else if r.pos + 8 * n.toNat ≤ r.bits then
    some ⟨r.data, r.bits, r.pos + 8 * n.toNat⟩
  else none

/-! # SCTE-35 data model (`scte35_types.h`) -/

/-- Macro `SCTE35_START_EVENT` from `scte35_types.h`. -/
def SCTE35_START_EVENT (type : Nat) : Prop :=
  type = 0x30 ∨ type = 0x32 ∨ type = 0x34 ∨ type = 0x36

/-- Macro `SCTE35_END_EVENT` from `scte35_types.h`. -/
def SCTE35_END_EVENT (type : Nat) : Prop :=
  type = 0x31 ∨ type = 0x33 ∨ type = 0x35 ∨ type = 0x37

instance (t : Nat) : Decidable (SCTE35_START_EVENT t) := by
  unfold SCTE35_START_EVENT; infer_instance

instance (t : Nat) : Decidable (SCTE35_END_EVENT t) := by
  unfold SCTE35_END_EVENT; infer_instance

/-- The `splice_time_t` struct.  The union is embedded by keeping both arms;
only the arm selected by `time_specified_flag` is ever written. -/
structure splice_time_t where
  time_specified_flag : Nat
  time_specified_flag_reserved : Nat := 0
  pts_time : Nat := 0
  reserved : Nat := 0
  deriving DecidableEq, Repr, Inhabited

structure break_duration_t where
  auto_return : Nat := 0
  reserved : Nat := 0
  duration : Nat := 0
  deriving DecidableEq, Repr, Inhabited

structure insert_component_t where
  component_tag : Nat
  splice_time : splice_time_t
  deriving DecidableEq, Repr, Inhabited

structure splice_insert_t where
  splice_event_id : Nat
  splice_event_cancel_indicator : Nat
  reserved : Nat
  out_of_network_indicator : Nat := 0
  program_splice_flag : Nat := 0
  duration_flag : Nat := 0
  splice_immediate_flag : Nat := 0
  splice_event_reserved : Nat := 0
  splice_time : splice_time_t := default
  component_count : Nat := 0
  components : List insert_component_t := []
  break_duration : break_duration_t := default
  unique_program_id : Nat := 0
  avail_num : Nat := 0
  avails_expected : Nat := 0
  deriving DecidableEq, Repr, Inhabited

structure splice_descriptor_t where
  splice_descriptor_tag : Nat
  descriptor_length : Nat
  identifier : Nat
  deriving DecidableEq, Repr, Inhabited

structure component_tag_t where
  component_tag : Nat
  reserved : Nat
  pts_offset : Nat
  deriving DecidableEq, Repr, Inhabited

structure segmentation_descriptor_t where
  descriptor : splice_descriptor_t
  segmentation_event_id : Nat
  segmentation_event_cancel_indicator : Nat
  reserved : Nat
  program_segmentation_flag : Nat := 0
  segmentation_duration_flag : Nat := 0
  delivery_not_restricted_flag : Nat := 0
  web_delivery_allowed_flag : Nat := 0
  no_regional_blackout_flag : Nat := 0
  archive_allowed_flag : Nat := 0
  device_restrictions : Nat := 0
  reserved_flags : Nat := 0
  component_count : Nat := 0
  component_tags : List component_tag_t := []
  segmentation_duration : Nat := 0
  segmentation_upid_type : Nat := 0
  segmentation_upid_length : Nat := 0
  segmentation_upid_data : List Nat := []
  segmentation_type_id : Nat := 0
  segment_num : Nat := 0
  segments_expected : Nat := 0
  deriving DecidableEq, Repr, Inhabited

inductive splice_command_t where
  | splice_insert (si : splice_insert_t)
  | splice_time_signal (st : splice_time_t)
  deriving DecidableEq, Repr, Inhabited

/-- The fixed-width header fields of `splice_info_section_t`, read first by
`EsParserScte35::Parse`. -/
structure SectionHeader where
  table_id : Nat
  section_syntax_indicator : Nat
  private_indicator : Nat
  reserved : Nat
  section_length : Nat
  protocol_version : Nat
  encrypted_packet : Nat
  encryption_algorithm : Nat
  pts_adjustment : Nat
  cw_index : Nat
  tier : Nat
  splice_command_length : Nat
  splice_command_type : Nat
  deriving DecidableEq, Repr, Inhabited

/-- The decoded `splice_info_section_t`.  The fixed C array
`segmentation_descriptor[8]` is embedded as the list of descriptors in the
order the parser writes them (list position = array index written). -/
structure splice_info_section_t where
  header : SectionHeader
  splice_command : splice_command_t
  descriptor_loop_length : Nat
  segmentation_descriptor_count : Nat
  segmentation_descriptor : List segmentation_descriptor_t
  alignment_stuffing_bytes_length : Nat
  e_crc_32 : Nat
  crc_32 : Nat
  deriving DecidableEq, Repr, Inhabited

/-- Capacity of the `segmentation_descriptor` array in `splice_info_section_t`
(`segmentation_descriptor_t segmentation_descriptor[8]`). -/
def segmentation_descriptor_capacity : Nat := 8

/-- Byte size of `segmentation_descriptor_t` on an LP64 platform (the value of
`sizeof(segmentation_descriptor_t)` used by the descriptor-loop-length guard):
8 (embedded `splice_descriptor_t`) + 4 + 2 + 3 + 4 + 1 + 2 padding +
255 * 16 (`component_tags`) + 8 + 2 + 256 (`segmentation_upid_data`) + 5 +
1 tail padding = 4376. -/
def sizeof_segmentation_descriptor_t : Nat := 4376

/-! # SCTE-35 section parser (`EsParserScte35::Parse`)

The parse is split into the same phases as the source: the fixed header reads,
the switch on `splice_command_type`, the descriptor loop, and the tail
(alignment stuffing / `e_crc_32` / `crc_32`).  Every `RCHECK(ReadBits(...))` of
the source becomes a monadic bind in `Option`. -/

/-- Read the first six fixed header fields (`es_parser_scte35.cc:42-47`). -/
def parseHeaderFront (r : BitReader) :
    Option ((Nat × Nat × Nat × Nat × Nat × Nat) × BitReader) := do
  let (table_id, r) ← readBits r 8
  let (ssi, r) ← readBits r 1
  let (pi, r) ← readBits r 1
  let (res, r) ← readBits r 2
  let (section_length, r) ← readBits r 12
  let (protocol_version, r) ← readBits r 8
  pure ((table_id, ssi, pi, res, section_length, protocol_version), r)

/-- Read the remaining seven fixed header fields (`es_parser_scte35.cc:48-54`). -/
def parseHeaderBack (r : BitReader) :
    Option ((Nat × Nat × Nat × Nat × Nat × Nat × Nat) × BitReader) := do
  let (encrypted_packet, r) ← readBits r 1
  let (encryption_algorithm, r) ← readBits r 6
  let (pts_adjustment, r) ← readBits r 33
  let (cw_index, r) ← readBits r 8
  let (tier, r) ← readBits r 12
  let (splice_command_length, r) ← readBits r 12
  let (splice_command_type, r) ← readBits r 8
  pure ((encrypted_packet, encryption_algorithm, pts_adjustment, cw_index,
         tier, splice_command_length, splice_command_type), r)

/-- Read the thirteen fixed header fields (`es_parser_scte35.cc:42-54`). -/
def parseSectionHeader (r : BitReader) : Option (SectionHeader × BitReader) := do
  let (f, r) ← parseHeaderFront r
  let (b, r) ← parseHeaderBack r
  pure (⟨f.1, f.2.1, f.2.2.1, f.2.2.2.1, f.2.2.2.2.1, f.2.2.2.2.2,
         b.1, b.2.1, b.2.2.1, b.2.2.2.1, b.2.2.2.2.1, b.2.2.2.2.2.1,
         b.2.2.2.2.2.2⟩, r)

/-- Parse a `splice_time()` structure (`es_parser_scte35.cc:130-139`, also used
inside `splice_insert`). -/
def parseSpliceTime (r : BitReader) : Option (splice_time_t × BitReader) := do
  let (flag, r) ← readBits r 1
  if flag ≠ 0 then
    let (rsv, r) ← readBits r 6
    let (pts, r) ← readBits r 33
    pure ({ time_specified_flag := flag, time_specified_flag_reserved := rsv,
            pts_time := pts }, r)
  else
    let (rsv, r) ← readBits r 7
    pure ({ time_specified_flag := flag, reserved := rsv }, r)

/-- Parse the per-component entries of a non-program `splice_insert`
(`es_parser_scte35.cc:93-109`). -/
def parseInsertComponents (immediate : Nat) :
    Nat → BitReader → Option (List insert_component_t × BitReader)
  | 0, r => pure ([], r)
  | n + 1, r => do
    let (tag, r) ← readBits r 8
    if immediate = 0 then
      let (st, r) ← parseSpliceTime r
      let (rest, r) ← parseInsertComponents immediate n r
      pure (⟨tag, st⟩ :: rest, r)
    else
      let (rest, r) ← parseInsertComponents immediate n r
      pure (⟨tag, default⟩ :: rest, r)

/-- Read the five flag bits of an uncancelled `splice_insert`
(`es_parser_scte35.cc:70-74`). -/
def parseInsertFlags (r : BitReader) :
    Option ((Nat × Nat × Nat × Nat × Nat) × BitReader) := do
  let (oni, r) ← readBits r 1
  let (prog, r) ← readBits r 1
  let (durf, r) ← readBits r 1
  let (immediate, r) ← readBits r 1
  let (evrsv, r) ← readBits r 4
  pure ((oni, prog, durf, immediate, evrsv), r)

/-- Parse a `break_duration()` structure (`es_parser_scte35.cc:114-116`). -/
def parseBreakDuration (r : BitReader) : Option (break_duration_t × BitReader) := do
  let (ar, r) ← readBits r 1
  let (rs, r) ← readBits r 6
  let (d, r) ← readBits r 33
  pure (⟨ar, rs, d⟩, r)

/-- Parse the body of an uncancelled `splice_insert`
(`es_parser_scte35.cc:70-120`). -/
def parseInsertBody (event_id cancel rsv : Nat) (r : BitReader) :
    Option (splice_insert_t × BitReader) := do
  let (fl, r) ← parseInsertFlags r
  let (oni, prog, durf, immediate, evrsv) := fl
  let (stime, r) ←
    if prog = 1 ∧ immediate = 0 then parseSpliceTime r
    else pure ((default : splice_time_t), r)
  let (cc, r) ←
    if prog = 0 then do
      let (c, r) ← readBits r 8
      let (comps, r) ← parseInsertComponents immediate c r
      pure ((c, comps), r)
    else pure ((0, ([] : List insert_component_t)), r)
  let (bdur, r) ←
    if durf = 1 then parseBreakDuration r
    else pure ((default : break_duration_t), r)
  let (upid, r) ← readBits r 16
  let (anum, r) ← readBits r 8
  let (aexp, r) ← readBits r 8
  pure (⟨event_id, cancel, rsv, oni, prog, durf, immediate, evrsv, stime,
         cc.1, cc.2, bdur, upid, anum, aexp⟩, r)

/-- Parse the `splice_insert()` command (`es_parser_scte35.cc:60-122`). -/
def parseSpliceInsert (r : BitReader) : Option (splice_insert_t × BitReader) := do
  let (event_id, r) ← readBits r 32
  let (cancel, r) ← readBits r 1
  let (rsv, r) ← readBits r 7
  if cancel = 0 then
    parseInsertBody event_id cancel rsv r
  else
    pure ({ splice_event_id := event_id, splice_event_cancel_indicator := cancel,
            reserved := rsv }, r)

/-- Dispatch on `splice_command_type` (`es_parser_scte35.cc:58-146`): only 5
(`splice_insert`) and 6 (`time_signal`) are accepted; the `default` case logs
and returns parse failure. -/
def parseSpliceCommand (t : Nat) (r : BitReader) :
    Option (splice_command_t × BitReader) :=
  if t = 5 then
    (parseSpliceInsert r).map fun p => (.splice_insert p.1, p.2)
  else if t = 6 then
    (parseSpliceTime r).map fun p => (.splice_time_signal p.1, p.2)
  else
    none

/-- Parse the component list of a segmentation descriptor
(`es_parser_scte35.cc:220-225`).  The source stores each entry into
`component_tags[segmentation_descriptor_count]` (the same slot every
iteration); the embedding records the values read, in order. -/
def parseSegComponents : Nat → BitReader → Option (List component_tag_t × BitReader)
  | 0, r => pure ([], r)
  | n + 1, r => do
    let (tag, r) ← readBits r 8
    let (rsv, r) ← readBits r 7
    let (off, r) ← readBits r 33
    let (rest, r) ← parseSegComponents n r
    pure (⟨tag, rsv, off⟩ :: rest, r)

/-- Read `n` UPID bytes (`es_parser_scte35.cc:236-238`). -/
def parseUpidBytes : Nat → BitReader → Option (List Nat × BitReader)
  | 0, r => pure ([], r)
  | n + 1, r => do
    let (b, r) ← readBits r 8
    let (rest, r) ← parseUpidBytes n r
    pure (b :: rest, r)

/-- Read the delivery-restriction flags of a segmentation descriptor
(`es_parser_scte35.cc:204-214`): four flag fields when
`delivery_not_restricted_flag == 0`, otherwise five reserved bits. -/
def parseSegRestrictions (dnr : Nat) (r : BitReader) :
    Option ((Nat × Nat × Nat × Nat × Nat) × BitReader) :=
  if dnr = 0 then do
    let (web, r) ← readBits r 1
    let (noreg, r) ← readBits r 1
    let (arch, r) ← readBits r 1
    let (devr, r) ← readBits r 2
    pure ((web, noreg, arch, devr, 0), r)
  else do
    let (rflags, r) ← readBits r 5
    pure ((0, 0, 0, 0, rflags), r)

/-- Read the UPID block and the trailing type/numbering bytes of a
segmentation descriptor (`es_parser_scte35.cc:233-242`). -/
def parseSegUpidTail (r : BitReader) :
    Option ((Nat × Nat × List Nat × Nat × Nat × Nat) × BitReader) := do
  let (upid_type, r) ← readBits r 8
  let (upid_length, r) ← readBits r 8
  let (upid, r) ← parseUpidBytes upid_length r
  let (type_id, r) ← readBits r 8
  let (seg_num, r) ← readBits r 8
  let (segs_exp, r) ← readBits r 8
  pure ((upid_type, upid_length, upid, type_id, seg_num, segs_exp), r)

/-- Parse the body of an uncancelled segmentation descriptor
(`es_parser_scte35.cc:201-251`).  The `0x34`/`0x36` sub-segment branch of the
source is an empty block (its reads are commented out). -/
def parseSegBody (d : splice_descriptor_t) (event_id cancel rsv : Nat)
    (r : BitReader) : Option (segmentation_descriptor_t × BitReader) := do
  let (prog, r) ← readBits r 1
  let (durf, r) ← readBits r 1
  let (dnr, r) ← readBits r 1
  let (fl, r) ← parseSegRestrictions dnr r
  let (cc, r) ←
    if prog = 0 then do
      let (c, r) ← readBits r 8
      let (comps, r) ← parseSegComponents c r
      pure ((c, comps), r)
    else pure ((0, ([] : List component_tag_t)), r)
  let (segdur, r) ←
    if durf = 1 then readBits r 40
    else pure (0, r)
  let (tl, r) ← parseSegUpidTail r
  pure (⟨d, event_id, cancel, rsv, prog, durf, dnr, fl.1, fl.2.1, fl.2.2.1,
         fl.2.2.2.1, fl.2.2.2.2, cc.1, cc.2, segdur, tl.1, tl.2.1, tl.2.2.1,
         tl.2.2.2.1, tl.2.2.2.2.1, tl.2.2.2.2.2⟩, r)

/-- Parse one segmentation descriptor body after its 6-byte tag/length/
identifier preamble (`es_parser_scte35.cc:189-257`). -/
def parseSegmentationDescriptor (d : splice_descriptor_t) (r : BitReader) :
    Option (segmentation_descriptor_t × BitReader) := do
  let (event_id, r) ← readBits r 32
  let (cancel, r) ← readBits r 1
  let (rsv, r) ← readBits r 7
  if cancel = 0 then
    parseSegBody d event_id cancel rsv r
  else
    pure ({ descriptor := d, segmentation_event_id := event_id,
            segmentation_event_cancel_indicator := cancel, reserved := rsv }, r)

/-- The descriptor loop (`es_parser_scte35.cc:163-258`): while
`loop_remaining > 0`, read tag/length/identifier; a tag other than `0x02` is
skipped (`descriptor_length - 4` bytes, the identifier having been read
already); a `0x02` descriptor is parsed and appended.  Either way
`loop_remaining` decreases by `descriptor_length + 2`.  The returned trace
lists each processed `(tag, descriptor_length)` pair in order.  Fuel bounds the
recursion; since every iteration subtracts at least 2, `remaining + 1` steps
always suffice and the fuel-exhausted branch is unreachable from `parse`. -/
def descriptorLoop :
    Nat → Int → BitReader →
    Option (List (Nat × Nat) × List segmentation_descriptor_t × Int × BitReader)
  | 0, remaining, r => if remaining > 0 then none else some ([], [], remaining, r)
  | fuel + 1, remaining, r =>
    if remaining > 0 then do
      let (tag, r) ← readBits r 8
      let (len, r) ← readBits r 8
      let (ident, r) ← readBits r 32
      if tag ≠ 0x02 then
        let r ← skipBytes r ((len : Int) - 4)
        let (procs, descs, rem, r) ←
          descriptorLoop fuel (remaining - ((len : Int) + 2)) r
        pure ((tag, len) :: procs, descs, rem, r)
      else do
        let (sd, r) ← parseSegmentationDescriptor ⟨tag, len, ident⟩ r
        let (procs, descs, rem, r) ←
          descriptorLoop fuel (remaining - ((len : Int) + 2)) r
        pure ((tag, len) :: procs, sd :: descs, rem, r)
    else
      some ([], [], remaining, r)

/-- The state of a section parse after the descriptor loop has completed:
everything `EsParserScte35::Parse` decoded so far, plus the
`(tag, descriptor_length)` trace of the loop. -/
structure SectionPrefix where
  header : SectionHeader
  splice_command : splice_command_t
  descriptor_loop_length : Nat
  descriptor_trace : List (Nat × Nat)
  segmentation_descriptor : List segmentation_descriptor_t
  deriving DecidableEq, Repr, Inhabited

/-- Everything `EsParserScte35::Parse` does before the tail reads: header,
command, `descriptor_loop_length`, the capacity guard
(`RCHECK(descriptor_loop_length <= sizeof(segmentation_descriptor_t)*8)`),
the descriptor loop, and the final `RCHECK(loop_remaining == 0)`. -/
def parseBody (buf : List Nat) : Option (SectionPrefix × BitReader) := do
  let (h, r) ← parseSectionHeader (BitReader.ofBytes buf)
  let (cmd, r) ← parseSpliceCommand h.splice_command_type r
  let (ll, r) ← readBits r 16
  if ll ≤ sizeof_segmentation_descriptor_t * 8 then
    let (procs, descs, rem, r) ← descriptorLoop (ll + 1) (ll : Int) r
    if rem = 0 then
      pure ((⟨h, cmd, ll, procs, descs⟩ : SectionPrefix), r)
    else none
  else none

/-- The tail of the parse (`es_parser_scte35.cc:262-272`): when
`encrypted_packet` is set, the source computes `total_read_bytes` from
`bits_available()` (the bytes still remaining, despite the name), derives
`alignment_stuffing_bytes_length = section_length + 3 - total_read_bytes - 8`
(assigned to a `uint8_t`, hence the wrap modulo 256), skips that many bytes and
reads `e_crc_32`; in both cases it then reads `crc_32`. -/
def parseTail (section_length : Nat) (encrypted : Nat) (r : BitReader) :
    Option ((Nat × Nat × Nat) × BitReader) :=
  if encrypted ≠ 0 then do
    let total_read_bytes : Int := (r.bits_available / 8 : Nat)
    let remaining_section_bytes : Int := (section_length : Int) + 3 - total_read_bytes
    let stuffing : Nat := ((remaining_section_bytes - 4 - 4) % 256).toNat
    let r ← skipBytes r (stuffing : Int)
    let (ecrc, r) ← readBits r 32
    let (crc, r) ← readBits r 32
    pure ((stuffing, ecrc, crc), r)
  else do
    let (crc, r) ← readBits r 32
    pure ((0, 0, crc), r)

/-- The full `EsParserScte35::Parse` on one section buffer, returning the
decoded section and the final reader (whose `pos` is the number of bits
consumed), or `none` where the source returns `false`. -/
def parse (buf : List Nat) : Option (splice_info_section_t × BitReader) :=
  (parseBody buf).bind fun (body, r) =>
    (parseTail body.header.section_length body.header.encrypted_packet r).map
      fun (t, r) =>
        (⟨body.header, body.splice_command, body.descriptor_loop_length,
          body.segmentation_descriptor.length, body.segmentation_descriptor,
          t.1, t.2.1, t.2.2⟩, r)

/-- On success the parser hands the section to `new_splice_info_cb_` exactly
once (`es_parser_scte35.cc:278`); on failure the callback never runs.  The
list records the `(pid, section)` invocations of one `Parse` call. -/
def parseCallbacks (pid : Nat) (buf : List Nat) :
    List (Nat × splice_info_section_t) :=
  match parse buf with
  | some (s, _) => [(pid, s)]
  | none => []

/-! # TS private-section framer (`TsSectionData`, `ts_section_data.cc`)

The framer holds only the `wait_for_pusi_` flag (the `ByteQueue` member is
never touched by `ts_section_data.cc`).  It is embedded instantiated with the
SCTE-35 ES parser of this file; a `Parse` call returns the boolean result, the
new framer state, and the list of payloads handed to `EsParser::Parse` during
the call. -/

structure TsSectionData where
  wait_for_pusi : Bool
  deriving DecidableEq, Repr

/-- Constructor state (`ts_section_data.cc:19-23`): `wait_for_pusi_(true)`. -/
def tsSectionDataInit : TsSectionData := ⟨true⟩

/-- The body of `TsSectionData::Parse` (`ts_section_data.cc:28-53`).  A call
with `payload_unit_start_indicator` false while `wait_for_pusi_` is set is
ignored (`return true`).  Otherwise, when PUSI is set the pointer field is
skipped (`buf++; size--; buf += pointer; size -= pointer`) and the single
resulting payload is passed straight to `es_parser_->Parse`; nothing is ever
buffered between calls and `wait_for_pusi_` is never modified. -/
def tsSectionParse (st : TsSectionData) (pusi : Bool) (buf : List Nat) :
    Bool × TsSectionData × List (List Nat) :=
  if st.wait_for_pusi ∧ ¬ pusi then (true, st, [])
  else
    let payload := if pusi then (buf.drop 1).drop (buf.headD 0) else buf
    ((parse payload).isSome, st, [payload])

/-! # Cue alignment handler (`cue_alignment_handler.cc`) -/

inductive StreamType where
  | kStreamAudio
  | kStreamVideo
  | kStreamText
  deriving DecidableEq, Repr, Inhabited

structure StreamInfo where
  stream_type : StreamType
  time_scale : Nat
  deriving DecidableEq, Repr, Inhabited

/-- One `StreamData` carrying either a media or a text sample.  Media samples
carry `pts` and `duration` in stream ticks (`int64_t`), text samples carry
their start and end times. -/
inductive SampleData where
  | media (pts duration : Int) (is_key_frame : Bool)
  | text (start_time end_time : Int)
  deriving DecidableEq, Repr, Inhabited

/-- Embeds `GetScaledTime` (`cue_alignment_handler.cc:21-45`): text samples use
their start time; audio media samples use `pts() + duration() / 2` (C++
`int64_t` division, i.e. truncation); everything else uses `pts()`. -/
def GetScaledTime (info : StreamInfo) (d : SampleData) : Int :=
  match d with
  | .text s _ => s
  | .media pts dur _ =>
    if info.stream_type = .kStreamAudio then pts + Int.tdiv dur 2
    else pts

/-- Embeds `TimeInSeconds` (`cue_alignment_handler.cc:47-52`): the source
computes `static_cast<double>((scaled_time) / time_scale)` — the division is
performed on the integers first (C++ truncating division) and only the
quotient is cast to `double`. -/
def TimeInSeconds (info : StreamInfo) (d : SampleData) : ℚ :=
  ((Int.tdiv (GetScaledTime info d) (info.time_scale : Int) : Int) : ℚ)

inductive CueEventType where
  | kCueScte35
  deriving DecidableEq, Repr, Inhabited

/-- The SCTE-35 event carried by `StreamData::scte35_event`, with the fields
`cue_alignment_handler.cc` reads from it. -/
structure Scte35Event where
  start_time_pts : Int
  duration : Int
  descriptor : segmentation_descriptor_t
  deriving DecidableEq, Repr, Inhabited

/-- Modelled from the spec: `kPtsTimescale` (declared outside the extracted
sources) is the 90 kHz MPEG-TS PTS clock; §8 scenario 2 maps pts 90000 to
1.0 s. -/
def kPtsTimescale : ℚ := 90000

/-- The normalized cue event (`CueEvent`), with the fields the handler uses. -/
structure CueEvent where
  type : CueEventType := .kCueScte35
  time_in_seconds : ℚ
  duration : ℚ := 0
  signal : Option Scte35Event := none
  deriving DecidableEq, Repr, Inhabited

inductive CueState where
  | kStateInProgram
  | kStateInAd
  deriving DecidableEq, Repr, Inhabited

/-- Modelled from the spec: the sync-point queue (§4.2, implementation outside
the extracted sources) keeps cue events ordered by `time_in_seconds`,
preserving insertion order among equal times. -/
structure SyncPointQueue where
  events : List CueEvent
  deriving DecidableEq, Repr

/-- Modelled from the spec: `add(event)` inserts keyed by `time_in_seconds`;
events at the same time retain insertion order. -/
def SyncPointQueue.SyncPointAdd (q : SyncPointQueue) (e : CueEvent) :
    SyncPointQueue :=
  ⟨(q.events.takeWhile (fun x => x.time_in_seconds ≤ e.time_in_seconds)) ++
   e :: (q.events.dropWhile (fun x => x.time_in_seconds ≤ e.time_in_seconds))⟩

/-- Modelled from the spec: `get_hint(after)` returns the time of the next
event strictly greater than `after`, or a sentinel "infinity" if none; the
sentinel is embedded as `none`. -/
def SyncPointQueue.GetHint (q : SyncPointQueue) (after : ℚ) : Option ℚ :=
  ((q.events.filter (fun x => after < x.time_in_seconds)).head?).map
    (fun x => x.time_in_seconds)

/-- Per-stream state of the handler (`StreamState`): stream info, the FIFO of
buffered samples, the FIFO of pending cues, the cue state and the flush flag. -/
structure StreamState where
  info : StreamInfo
  samples : List SampleData := []
  cues : List CueEvent := []
  state : CueState := .kStateInProgram
  to_be_flushed : Bool := false
  max_text_sample_end_time_seconds : ℚ := 0
  deriving DecidableEq, Repr, Inhabited

inductive Status where
  | ok
  | invalid_argument
  | cancelled
  deriving DecidableEq, Repr

/-- Handler state: the sync-point queue, the hint horizon (a `double` that can
be the queue's "infinity" sentinel, embedded as `none`), and the per-stream
states. -/
structure CueAlignmentHandler where
  sync_points : SyncPointQueue
  hint : Option ℚ
  stream_states : List StreamState
  deriving DecidableEq, Repr

/-- Embeds `CueAlignmentHandler::OnSignal` (`cue_alignment_handler.cc:199-243`):
when the event's `segmentation_type_id` is a START event while the stream is
`kStateInProgram`, or an END event while it is `kStateInAd`, a `CueEvent` is
built (times converted from PTS by `kPtsTimescale`), added to the sync-point
queue, and the hint refreshed with `GetHint(-1)`; in every other case nothing
happens and `Status::OK` is returned. -/
def OnSignal (h : CueAlignmentHandler) (stream_index : Nat) (ev : Scte35Event) :
    CueAlignmentHandler × Status :=
  let stream := h.stream_states.getD stream_index default
  if (SCTE35_START_EVENT ev.descriptor.segmentation_type_id ∧
        stream.state = .kStateInProgram) ∨
     (SCTE35_END_EVENT ev.descriptor.segmentation_type_id ∧
        stream.state = .kStateInAd) then
    let event : CueEvent :=
      { type := .kCueScte35,
        time_in_seconds := (ev.start_time_pts : ℚ) / kPtsTimescale,
        duration := (ev.duration : ℚ) / kPtsTimescale,
        signal := some ev }
    let q := h.sync_points.SyncPointAdd event
    ({ h with sync_points := q, hint := q.GetHint (-1) }, .ok)
  else
    (h, .ok)

/-- A sample or cue handed to `Dispatch`, in dispatch order. -/
inductive DispatchedData where
  | sample (s : SampleData)
  | cue (c : CueEvent)
  deriving DecidableEq, Repr

/-- Comparison of a sample time against the hint `double` (whose "no more sync
points" sentinel, embedded as `none`, compares greater than every time). -/
def ltHint (t : ℚ) : Option ℚ → Bool
  | none => true
  | some h => decide (t < h)

/-- The merge phase of `RunThroughSamples` (`cue_alignment_handler.cc:411-423`):
while both FIFOs are non-empty, dispatch the front sample when
`sample_time < cue_time`, otherwise dispatch the front cue.  Returns the
dispatch sequence and the leftover cue and sample FIFOs.  Fuel is the sum of
the two FIFO lengths, which every iteration decreases by one. -/
def mergeLoop (info : StreamInfo) :
    Nat → List CueEvent → List SampleData →
    List DispatchedData × List CueEvent × List SampleData
  | 0, cues, samples => ([], cues, samples)
  | fuel + 1, c :: cs, s :: ss =>
    if TimeInSeconds info s < c.time_in_seconds then
      let (out, rest) := mergeLoop info fuel (c :: cs) ss
      (.sample s :: out, rest)
    else
      let (out, rest) := mergeLoop info fuel cs (s :: ss)
      (.cue c :: out, rest)
  | _ + 1, cues, samples => ([], cues, samples)

/-- The drain phase of `RunThroughSamples` (`cue_alignment_handler.cc:428-432`):
after the merge, dispatch every leading sample whose time is below the hint. -/
def drainLoop (hint : Option ℚ) (info : StreamInfo) :
    List SampleData → List DispatchedData × List SampleData
  | [] => ([], [])
  | s :: ss =>
    if ltHint (TimeInSeconds info s) hint then
      let (out, rest) := drainLoop hint info ss
      (.sample s :: out, rest)
    else
      ([], s :: ss)

/-- Embeds `CueAlignmentHandler::RunThroughSamples`
(`cue_alignment_handler.cc:408-435`), returning the dispatch sequence of the
call together with the stream state it leaves behind. -/
def RunThroughSamples (hint : Option ℚ) (st : StreamState) :
    List DispatchedData × StreamState :=
  let (out1, rest1) := mergeLoop st.info (st.cues.length + st.samples.length)
    st.cues st.samples
  let (out2, rest2) := drainLoop hint st.info rest1.2
  (out1 ++ out2, { st with cues := rest1.1, samples := rest2 })

/-- Ordering property of a dispatch sequence: every dispatched sample strictly
precedes (in time) every cue dispatched after it. -/
def sampleBeforeCueOK (info : StreamInfo) : List DispatchedData → Prop
  | [] => True
  | .sample s :: rest =>
      (∀ c, DispatchedData.cue c ∈ rest →
         TimeInSeconds info s < c.time_in_seconds) ∧
      sampleBeforeCueOK info rest
  | .cue _ :: rest => sampleBeforeCueOK info rest

/-! # HLS media playlist writer (`media_playlist.cc`) -/

inductive HlsPlaylistType where
  | kVod
  | kEvent
  | kLive
  deriving DecidableEq, Repr, Inhabited

inductive MediaPlaylistStreamType where
  | kUnknown
  | kAudio
  | kVideo
  | kVideoIFramesOnly
  | kSubtitle
  deriving DecidableEq, Repr, Inhabited

inductive EncryptionMethod where
  | kNone
  | kAes128
  | kSampleAes
  | kSampleAesCenc
  deriving DecidableEq, Repr, Inhabited

inductive SpliceType where
  | kLiveDAI
  | kALTCON
  deriving DecidableEq, Repr, Inhabited

inductive EntryType where
  | kExtInf
  | kExtKey
  | kExtDiscontinuity
  | kExtPlacementOpportunity
  | kExtSignalExit
  | kExtSignalSpan
  | kExtSignalReturn
  deriving DecidableEq, Repr, Inhabited

/-- A playlist entry (`HlsEntry` and its subclasses in `media_playlist.cc`).
Optional numeric attributes whose C++ fields hold the `kDefaultValue*`
sentinels (compared with `!=` before rendering) are embedded as `Option`. -/
inductive HlsEntry where
  | segmentInfo (file_name : String) (start_time duration : ℚ)
      (use_byte_range : Bool)
      (start_byte_offset segment_file_size previous_segment_end_offset : Nat)
  | encryptionInfo (method : EncryptionMethod)
      (url key_id iv key_format key_format_versions : String)
  | discontinuity
  | placementOpportunity
  | signalExit (splice_type : SpliceType) (duration : Option ℚ)
      (eventid : Option Nat) (upid : String) (segment_type_id : Option Nat)
      (flags : Nat)
  | signalSpan (splice_type : SpliceType) (position : ℚ) (duration : Option ℚ)
  | signalReturn (splice_type : SpliceType) (duration : Option ℚ)
  deriving DecidableEq, Repr, Inhabited

/-- The `HlsEntry::type()` discriminator. -/
def HlsEntry.type : HlsEntry → EntryType
  | .segmentInfo .. => .kExtInf
  | .encryptionInfo .. => .kExtKey
  | .discontinuity => .kExtDiscontinuity
  | .placementOpportunity => .kExtPlacementOpportunity
  | .signalExit .. => .kExtSignalExit
  | .signalSpan .. => .kExtSignalSpan
  | .signalReturn .. => .kExtSignalReturn

/-- The `MediaInfo` fields the playlist header rendering consumes. -/
structure MediaInfoEmb where
  init_segment_url : Option String := none
  media_file_url : Option String := none
  init_range : Option (Nat × Nat) := none
  deriving DecidableEq, Repr, Inhabited

/-- The `HlsParams` fields `media_playlist.cc` consumes. -/
structure HlsParams where
  playlist_type : HlsPlaylistType
  time_shift_buffer_depth : ℚ
  target_segment_duration : ℚ := 0
  preserved_segments_outside_live_window : Nat := 0
  deriving DecidableEq, Repr, Inhabited

/-- The `MediaPlaylist` state touched by `WriteToFile`, `SetTargetDuration`
and `SlideWindow`.  `removed_segment_start_times` records the arguments of the
`RemoveOldSegment` calls made while sliding. -/
structure MediaPlaylist where
  hls_params : HlsParams
  media_info : MediaInfoEmb := {}
  entries : List HlsEntry := []
  target_duration : Nat := 0
  target_duration_set : Bool := false
  longest_segment_duration : ℚ := 0
  media_sequence_number : Int := 0
  discontinuity_sequence_number : Int := 0
  stream_type : MediaPlaylistStreamType := .kUnknown
  removed_segment_start_times : List ℚ := []
  deriving DecidableEq, Repr, Inhabited

/-- Modelled from the spec: the tag builder (`hls/base/tag.h`, outside the
extracted sources).  Following the §6 output example
(`#EXT-X-SIGNAL-EXIT:30.000,SpliceType=LiveDAI,segmentationEventId=...`), the
first item follows the tag name after a colon and later items are
comma-separated; `Add*String`/`AddNumber` render `NAME=value`, the quoted
variants render `NAME="value"`, `AddValue` renders a bare value and
`AddOfValue` appends `/value` to the previous one. -/
structure Tag where
  buffer : String
  has_fields : Bool
  deriving DecidableEq, Repr, Inhabited

def Tag.start (name : String) : Tag := ⟨name, false⟩

def Tag.sep (t : Tag) : String := if t.has_fields then "," else ":"

def Tag.addString (t : Tag) (key value : String) : Tag :=
  ⟨t.buffer ++ t.sep ++ key ++ "=" ++ value, true⟩

def Tag.addQuotedString (t : Tag) (key value : String) : Tag :=
  ⟨t.buffer ++ t.sep ++ key ++ "=" ++ "\"" ++ value ++ "\"", true⟩

def Tag.addNumber (t : Tag) (key : String) (n : Nat) : Tag :=
  t.addString key (toString n)

def Tag.addValue (t : Tag) (v : String) : Tag :=
  ⟨t.buffer ++ t.sep ++ v, true⟩

def Tag.addOfValue (t : Tag) (v : String) : Tag :=
  ⟨t.buffer ++ "/" ++ v, t.has_fields⟩

def Tag.addQuotedNumberPair (t : Tag) (key : String) (a : Nat) (c : Char)
    (b : Nat) : Tag :=
  ⟨t.buffer ++ t.sep ++ key ++ "=" ++ "\"" ++ toString a ++ c.toString ++
   toString b ++ "\"", true⟩

/-- Fixed-point rendering of a non-negative rational with three decimals,
modelling the `"%.3f"` format used for `#EXTINF` durations and signal-tag
values (round half away from zero). -/
def fmtFixed3 (q : ℚ) : String :=
  let n : Nat := (⌊|q| * 1000 + (1 : ℚ) / 2⌋).toNat
  let sign : String := if q < 0 then "-" else ""
  let frac : Nat := n % 1000
  let fracStr : String :=
    if frac < 10 then "00" ++ toString frac
    else if frac < 100 then "0" ++ toString frac
    else toString frac
  sign ++ toString (n / 1000) ++ "." ++ fracStr

/-- Renders `SpliceTypeToString` (`media_playlist.cc:56-65`). -/
def SpliceTypeToString : SpliceType → String
  | .kLiveDAI => "LiveDAI"
  | .kALTCON => "ALTCON"

/-- Modelled from the spec: the numeric values of the `kFlag*` constants used
by `SignalExitEntry::ToString` are declared outside the extracted sources;
they are taken to be 1–4.  The expressions below reproduce the source
verbatim, including its operator precedence (`&` binds weaker than `>>`). -/
def kFlagWebDeliveryAllowed : Nat := 1
def kFlagNoRegionalBlackout : Nat := 2
def kFlagArchiveAllowed : Nat := 3
def kFlagDeviceRestrictions : Nat := 4

/-- Renders `EncryptionInfoEntry::ToString` (`media_playlist.cc:249-280`). -/
def encryptionInfoToString (method : EncryptionMethod)
    (url key_id iv key_format key_format_versions : String) : String :=
  let t := Tag.start "#EXT-X-KEY"
  let t := match method with
    | .kSampleAes => t.addString "METHOD" "SAMPLE-AES"
    | .kAes128 => t.addString "METHOD" "AES-128"
    | .kSampleAesCenc => t.addString "METHOD" "SAMPLE-AES-CTR"
    | .kNone => t.addString "METHOD" "NONE"
  let t := t.addQuotedString "URI" url
  let t := if key_id ≠ "" then t.addString "KEYID" key_id else t
  let t := if iv ≠ "" then t.addString "IV" iv else t
  let t := if key_format_versions ≠ "" then
    t.addQuotedString "KEYFORMATVERSIONS" key_format_versions else t
  let t := if key_format ≠ "" then t.addQuotedString "KEYFORMAT" key_format
    else t
  t.buffer

/-- Renders `SignalExitEntry::ToString` (`media_playlist.cc:386-435`). -/
def signalExitToString (splice_type : SpliceType) (duration : Option ℚ)
    (eventid : Option Nat) (upid : String) (segment_type_id : Option Nat)
    (flags : Nat) : String :=
  let t := Tag.start "#EXT-X-SIGNAL-EXIT"
  let t := match duration with
    | some d => t.addValue (fmtFixed3 d)
    | none => t
  let t := t.addString "SpliceType" (SpliceTypeToString splice_type)
  let t := match eventid with
    | some e => t.addNumber "segmentationEventId" e
    | none => t
  let t := if upid ≠ "" then t.addString "segmentationUpid" upid else t
  let t := match segment_type_id with
    | some s => t.addNumber "segmentationTypeId" s
    | none => t
  let t := if flags ≠ 0 then
    let t := t.addNumber "webDeliveryAllowedFlag"
      ((flags &&& kFlagWebDeliveryAllowed) >>> (kFlagWebDeliveryAllowed - 1))
    let t := t.addNumber "noRegionalBlackoutFlag"
      (flags &&& (kFlagNoRegionalBlackout >>> (kFlagNoRegionalBlackout - 1)))
    let t := t.addNumber "archiveAllowedFlag"
      (flags &&& (kFlagArchiveAllowed >>> (kFlagArchiveAllowed - 1)))
    t.addNumber "deviceRestrictions"
      (flags &&& (kFlagDeviceRestrictions >>> (kFlagDeviceRestrictions - 1)))
  else t
  t.buffer

/-- Renders `SignalSpanEntry::ToString` (`media_playlist.cc:485-522`). -/
def signalSpanToString (splice_type : SpliceType) (position : ℚ)
    (duration : Option ℚ) : String :=
  let t := Tag.start "#EXT-X-SIGNAL-SPAN"
  let t := t.addValue (fmtFixed3 position)
  let t := match duration with
    | some d => t.addOfValue (fmtFixed3 d)
    | none => t
  let t := t.addString "SpliceType" (SpliceTypeToString splice_type)
  t.buffer

/-- Renders `SignalReturnEntry::ToString` (`media_playlist.cc:545-555`). -/
def signalReturnToString (splice_type : SpliceType) (duration : Option ℚ) :
    String :=
  let t := Tag.start "#EXT-X-SIGNAL-RETURN"
  let t := match duration with
    | some d => t.addValue (fmtFixed3 d)
    | none => t
  let t := t.addString "SpliceType" (SpliceTypeToString splice_type)
  t.buffer

/-- Renders `HlsEntry::ToString` for every entry variant
(`SegmentInfoEntry::ToString` at `media_playlist.cc:196-210`,
`DiscontinuityEntry`/`PlacementOpportunityEntry` at 296-317, and the
signal/key entries above). -/
def entryToString : HlsEntry → String
  | .segmentInfo file_name _ duration use_byte_range start_byte_offset
      segment_file_size previous_segment_end_offset =>
    let result := "#EXTINF:" ++ fmtFixed3 duration ++ ","
    let result := if use_byte_range then
      result ++ "\n" ++ "#EXT-X-BYTERANGE:" ++ toString segment_file_size ++
        (if previous_segment_end_offset + 1 ≠ start_byte_offset then
          "@" ++ toString start_byte_offset
        else "")
    else result
    result ++ "\n" ++ file_name
  | .encryptionInfo method url key_id iv key_format key_format_versions =>
    encryptionInfoToString method url key_id iv key_format key_format_versions
  | .discontinuity => "#EXT-X-DISCONTINUITY"
  | .placementOpportunity => "#EXT-X-PLACEMENT-OPPORTUNITY"
  | .signalExit splice_type duration eventid upid segment_type_id flags =>
    signalExitToString splice_type duration eventid upid segment_type_id flags
  | .signalSpan splice_type position duration =>
    signalSpanToString splice_type position duration
  | .signalReturn splice_type duration =>
    signalReturnToString splice_type duration

/-- Modelled from the spec: `GetPackagerVersion`/`GetPackagerProjectUrl`
(`packager/version`, outside the extracted sources) are fixed strings for one
binary; the header renders them on the `## Generated with ...` line. -/
def packagerVersion : String := "v2.4.3-dai"

def packagerProjectUrl : String := "https://github.com/google/shaka-packager"

/-- Renders `CreatePlaylistHeader` (`media_playlist.cc:92-145`). -/
def CreatePlaylistHeader (media_info : MediaInfoEmb) (target_duration : Nat)
    (type : HlsPlaylistType) (stream_type : MediaPlaylistStreamType)
    (media_sequence_number discontinuity_sequence_number : Int) : String :=
  let version_line :=
    if packagerVersion ≠ "" then
      "## Generated with " ++ packagerProjectUrl ++ " version " ++
        packagerVersion ++ "\n"
    else ""
  let header := "#EXTM3U\n" ++ "#EXT-X-VERSION:6\n" ++ version_line ++
    "#EXT-X-TARGETDURATION:" ++ toString target_duration ++ "\n"
  let header := header ++
    (match type with
     | .kVod => "#EXT-X-PLAYLIST-TYPE:VOD\n"
     | .kEvent => "#EXT-X-PLAYLIST-TYPE:EVENT\n"
     | .kLive =>
       (if media_sequence_number > 0 then
         "#EXT-X-MEDIA-SEQUENCE:" ++ toString media_sequence_number ++ "\n"
       else "") ++
       (if discontinuity_sequence_number > 0 then
         "#EXT-X-DISCONTINUITY-SEQUENCE:" ++
           toString discontinuity_sequence_number ++ "\n"
       else ""))
  let header := header ++
    (if stream_type = .kVideoIFramesOnly then "#EXT-X-I-FRAMES-ONLY\n" else "")
  let header := header ++
    (match media_info.init_segment_url with
     | some u => (((Tag.start "#EXT-X-MAP").addQuotedString "URI" u).buffer) ++ "\n"
     | none =>
       match media_info.media_file_url, media_info.init_range with
       | some u, some range =>
         let t := (Tag.start "#EXT-X-MAP").addQuotedString "URI" u
         let t := t.addQuotedNumberPair "BYTERANGE"
           (range.2 - range.1 + 1) '@' range.1
         t.buffer ++ "\n"
       | _, _ => "")
  header

/-- Embeds `MediaPlaylist::GetLongestSegmentDuration`
(`media_playlist.cc:795-797`). -/
def GetLongestSegmentDuration (p : MediaPlaylist) : ℚ :=
  p.longest_segment_duration

/-- Embeds `MediaPlaylist::SetTargetDuration` (`media_playlist.cc:799-808`). -/
def SetTargetDuration (p : MediaPlaylist) (target_duration : Nat) :
    MediaPlaylist :=
  if p.target_duration_set then
    if p.target_duration = target_duration then p
    else { p with target_duration := target_duration }
  else
    { p with target_duration := target_duration, target_duration_set := true }

/-- Embeds `MediaPlaylist::WriteToFile` (`media_playlist.cc:762-783`),
returning the rendered playlist content together with the mutated playlist
(the file write itself is I/O and always receives exactly this content).
`ceil` of the longest duration lands in a `uint32_t`; negative values cannot
occur for real durations and are clamped by `Int.toNat`. -/
def WriteToFile (p : MediaPlaylist) : String × MediaPlaylist :=
  let p := if ¬ p.target_duration_set then
    SetTargetDuration p (⌈GetLongestSegmentDuration p⌉).toNat
  else p
  let content := CreatePlaylistHeader p.media_info p.target_duration
    p.hls_params.playlist_type p.stream_type p.media_sequence_number
    p.discontinuity_sequence_number
  let content := content ++
    String.join (p.entries.map (fun e => entryToString e ++ "\n"))
  let content := content ++
    (if p.hls_params.playlist_type = .kVod then "#EXT-X-ENDLIST\n" else "")
  (content, p)

/-- Embeds `LatestSegmentStartTime` (`media_playlist.cc:558-569`): the start
time of the last `kExtInf` entry, `0.0` when there is none. -/
def LatestSegmentStartTime (entries : List HlsEntry) : ℚ :=
  match entries.reverse.find? (fun e => e.type = .kExtInf) with
  | some (.segmentInfo _ start _ _ _ _ _) => start
  | _ => 0

/-- The eviction walk of `SlideWindow` (`media_playlist.cc:955-983`).
Arguments mirror the loop state: the entries not yet visited, the `ext_x_keys`
buffer, `prev_entry_type`, the two sequence counters, and the recorded
`RemoveOldSegment` arguments.  Returns the entries from the break point on
together with the final loop state.  A `kExtPlacementOpportunity` entry falls
into the source's `else` branch, whose `reinterpret_cast` to
`SegmentInfoEntry` reads unrelated memory; that unmodellable outcome is
embedded as `none`. -/
def slideLoop (limit : ℚ) :
    List HlsEntry → List HlsEntry → EntryType → Int → Int → List ℚ →
    Option (List HlsEntry × List HlsEntry × Int × Int × List ℚ)
  | [], keys, _, disc, seq, removed => some ([], keys, disc, seq, removed)
  | e :: rest, keys, prev, disc, seq, removed =>
    match e with
    | .encryptionInfo .. =>
      let keys := (if prev ≠ .kExtKey then [] else keys) ++ [e]
      slideLoop limit rest keys .kExtKey disc seq removed
    | .discontinuity =>
      slideLoop limit rest keys .kExtDiscontinuity (disc + 1) seq removed
    | .signalExit .. =>
      slideLoop limit rest keys .kExtSignalExit disc seq removed
    | .signalReturn .. =>
      slideLoop limit rest keys .kExtSignalReturn disc seq removed
    | .signalSpan .. =>
      slideLoop limit rest keys .kExtSignalSpan disc seq removed
    | .placementOpportunity => none
    | .segmentInfo _ start duration _ _ _ _ =>
      if limit < start + duration then
        some (e :: rest, keys, disc, seq, removed)
      else
        slideLoop limit rest keys .kExtInf disc (seq + 1) (removed ++ [start])

/-- The break condition of the eviction walk written as a predicate: a
`kExtInf` entry whose `start_time + duration` exceeds the timeshift limit. -/
def isExceedingInf (limit : ℚ) : HlsEntry → Bool
  | .segmentInfo _ start duration _ _ _ _ => decide (limit < start + duration)
  | _ => false

/-- Start time of the first `kExtInf` entry of a playlist, if any. -/
def firstExtInfStart : List HlsEntry → Option ℚ
  | [] => none
  | .segmentInfo _ start _ _ _ _ _ :: _ => some start
  | _ :: rest => firstExtInfStart rest

/-- Embeds `MediaPlaylist::SlideWindow` (`media_playlist.cc:925-988`): no-op
unless the playlist is live with a positive `time_shift_buffer_depth` and the
latest segment start exceeds the depth; otherwise evict entries up to the
first `kExtInf` whose `start + duration` exceeds
`current_play_time - depth`, counting discontinuities and evicted segments,
then reinsert the buffered `EXT-X-KEY` run at the head. -/
def SlideWindow (p : MediaPlaylist) : Option MediaPlaylist :=
  if p.hls_params.time_shift_buffer_depth ≤ 0 ∨
     p.hls_params.playlist_type ≠ .kLive then some p
  else if LatestSegmentStartTime p.entries ≤
       p.hls_params.time_shift_buffer_depth then some p
  else
    (slideLoop
      (LatestSegmentStartTime p.entries -
        p.hls_params.time_shift_buffer_depth)
      p.entries [] .kExtInf p.discontinuity_sequence_number
      p.media_sequence_number p.removed_segment_start_times).map
      fun (rest, keys, disc, seq, removed) =>
        { p with entries := keys ++ rest,
                 discontinuity_sequence_number := disc,
                 media_sequence_number := seq,
                 removed_segment_start_times := removed }

/-! # Concrete inputs used by witnesses and counterexamples -/

/-- A 21-byte `time_signal` section: `table_id 0xFC`, `section_length`
declared as 100 (deliberately inconsistent with the 21 actual bytes),
`splice_command_type 6` with `time_specified_flag 0`, an empty descriptor
loop, and a CRC.  The parser accepts it. -/
def c2buf : List Nat :=
  [0xFC, 0x00, 0x64, 0x00, 0x00, 0x00, 0x00, 0x00, 0x00, 0x00, 0x00, 0x00,
   0x00, 0x06, 0x00, 0x00, 0x00, 0x12, 0x34, 0x56, 0x78]

/-- A 32-byte `time_signal` section whose descriptor loop declares 22 bytes
and holds one cancelled segmentation descriptor with
`descriptor_length = 20`, although its actual encoding occupies only 9 bytes
after the tag/length pair. -/
def c4buf : List Nat :=
  [0xFC, 0x00, 0x64, 0x00, 0x00, 0x00, 0x00, 0x00, 0x00, 0x00, 0x00, 0x00,
   0x00, 0x06, 0x00, 0x00, 0x16, 0x02, 0x14, 0x43, 0x55, 0x45, 0x49, 0x00,
   0x00, 0x00, 0x01, 0x80, 0xDE, 0xAD, 0xBE, 0xEF]

/-- A 14-byte buffer whose header declares `splice_command_type 7`. -/
def c5buf : List Nat :=
  [0xFC, 0x00, 0x64, 0x00, 0x00, 0x00, 0x00, 0x00, 0x00, 0x00, 0x00, 0x00,
   0x00, 0x07]

/-- One cancelled tag-`0x02` descriptor declaring `descriptor_length 0`: the
loop accounting charges 2 bytes while the parse consumes 11. -/
def c10desc (k : Nat) : List Nat :=
  [0x02, 0x00, 0x43, 0x55, 0x45, 0x49, 0x00, 0x00, 0x00, k, 0x80]

/-- A 131-byte `time_signal` section whose descriptor loop declares 20 bytes
and contains ten of the descriptors above, so ten slots of the 8-entry
`segmentation_descriptor` array get written. -/
def c10buf : List Nat :=
  [0xFC, 0x00, 0x64, 0x00, 0x00, 0x00, 0x00, 0x00, 0x00, 0x00, 0x00, 0x00,
   0x00, 0x06, 0x00, 0x00, 0x14] ++
  (List.range 10).flatMap c10desc ++ [0xDE, 0xAD, 0xBE, 0xEF]

/-- The first ten bytes of `c2buf`: a section fragment as carried by a first
TS packet. -/
def c9part1 : List Nat := c2buf.take 10

/-- The remaining eleven bytes of `c2buf`: the continuation carried by a
second TS packet (`payload_unit_start_indicator` false). -/
def c9part2 : List Nat := c2buf.drop 10

/-- Header value decoded from `c5buf`, used to instantiate `C5`. -/
def c5hdr : SectionHeader :=
  ((parseSectionHeader (BitReader.ofBytes c5buf)).map Prod.fst).getD default

/-- Reader state after the header of `c5buf`. -/
def c5rdr : BitReader :=
  ((parseSectionHeader (BitReader.ofBytes c5buf)).map Prod.snd).getD default

/-- Section decoded from `c2buf`, used to instantiate `C2`. -/
def c2sec : splice_info_section_t :=
  ((parse c2buf).map Prod.fst).getD default

/-- Final reader state of the `c2buf` parse. -/
def c2rdr : BitReader :=
  ((parse c2buf).map Prod.snd).getD default

/-- Section prefix decoded from `c4buf`, used to instantiate `C4`. -/
def c4body : SectionPrefix :=
  ((parseBody c4buf).map Prod.fst).getD default

/-- Reader state after the descriptor loop of `c4buf`. -/
def c4rdr : BitReader :=
  ((parseBody c4buf).map Prod.snd).getD default

/-- A 48 kHz audio stream. -/
def audioInfo48k : StreamInfo := ⟨.kStreamAudio, 48000⟩

/-- An audio sample starting at pts 24000 (half a second) with duration 0. -/
def c3sample : SampleData := .media 24000 0 false

/-- A video-like stream with time scale 1, for the `C1` witness. -/
def c1info : StreamInfo := ⟨.kStreamVideo, 1⟩

/-- A pending cue at 1 s, for the `C1` witness. -/
def c1cue : CueEvent := { time_in_seconds := 1 }

/-- Stream state about to run the merge loop: one pending cue at 1 s between
samples at 0 s and 2 s. -/
def c1state : StreamState :=
  { info := c1info,
    samples := [.media 0 0 true, .media 2 0 false],
    cues := [c1cue] }

/-- An END-typed (`0x31`) SCTE-35 event, for the `C8` witness. -/
def c8event : Scte35Event :=
  { start_time_pts := 450000, duration := 900000,
    descriptor := { descriptor := ⟨2, 0, 0x43554549⟩,
                    segmentation_event_id := 1,
                    segmentation_event_cancel_indicator := 0,
                    reserved := 0,
                    segmentation_type_id := 0x31 } }

/-- A handler whose single stream is `kStateInProgram`, for the `C8`
witness. -/
def c8handler : CueAlignmentHandler :=
  { sync_points := ⟨[]⟩, hint := none,
    stream_states := [{ info := audioInfo48k }] }

/-- A live playlist with a 30-second window and four 10-second segments, for
the `C6` witness. -/
def c6playlist : MediaPlaylist :=
  { hls_params := { playlist_type := .kLive, time_shift_buffer_depth := 30 },
    entries := [.segmentInfo "s1.ts" 0 10 false 0 0 0,
                .segmentInfo "s2.ts" 10 10 false 0 0 0,
                .segmentInfo "s3.ts" 20 10 false 0 0 0,
                .segmentInfo "s4.ts" 40 10 false 0 0 0] }

/-! # Shared lemmas about the bit reader -/

theorem readBits_some {r : BitReader} {n v : Nat} {r' : BitReader}
    (h : readBits r n = some (v, r')) :
    r'.data = r.data ∧ r'.bits = r.bits ∧ r'.pos = r.pos + n := by
  unfold readBits at h
  split at h
  · cases h
    exact ⟨rfl, rfl, rfl⟩
  · cases h

theorem skipBytes_some {r : BitReader} {n : Int} {r' : BitReader}
    (h : skipBytes r n = some r') :
    r'.data = r.data ∧ r'.bits = r.bits ∧ r'.pos = r.pos + 8 * n.toNat := by
  unfold skipBytes at h
  split at h
  · cases h
  · split at h
    · cases h
      exact ⟨rfl, rfl, rfl⟩
    · cases h

/-- Inversion for a successful `Option` bind. -/
theorem optionBind_some {α β : Type _} {o : Option α} {f : α → Option β}
    {b : β} (h : o >>= f = some b) : ∃ a, o = some a ∧ f a = some b := by
  cases o with
  | none => simp at h
  | some a => exact ⟨a, rfl, h⟩

/-- Bit-position accounting for the tail of the parse: an encrypted section
consumes its stuffing bytes plus two 32-bit CRCs, an unencrypted one exactly
the 32-bit `crc_32`. -/
theorem parseTail_pos {sl enc : Nat} {r : BitReader} {out : Nat × Nat × Nat}
    {r' : BitReader} (h : parseTail sl enc r = some (out, r')) :
    r'.pos = r.pos + (if enc ≠ 0 then 8 * out.1 + 64 else 32) := by
  unfold parseTail at h
  split at h
  case isTrue henc =>
    obtain ⟨r1, h1, h⟩ := optionBind_some h
    obtain ⟨⟨e, r2⟩, h2, h⟩ := optionBind_some h
    obtain ⟨⟨c, r3⟩, h3, h⟩ := optionBind_some h
    simp only [Option.pure_def, Option.some.injEq, Prod.mk.injEq] at h
    obtain ⟨hout, hr⟩ := h
    subst hr
    obtain ⟨-, -, hp1⟩ := skipBytes_some h1
    obtain ⟨-, -, hp2⟩ := readBits_some h2
    obtain ⟨-, -, hp3⟩ := readBits_some h3
    rw [if_pos henc, ← hout]
    simp only [Int.toNat_natCast] at hp1
    omega
  case isFalse henc =>
    obtain ⟨⟨c, r1⟩, h1, h⟩ := optionBind_some h
    simp only [Option.pure_def, Option.some.injEq, Prod.mk.injEq] at h
    obtain ⟨hout, hr⟩ := h
    subst hr
    obtain ⟨-, -, hp1⟩ := readBits_some h1
    rw [if_neg henc]
    omega

/-! # Claim C2 -/

/-- C2, counterexample: `c2buf` parses successfully while its declared
`section_length` is 100; the parser consumes 168 bits, not
`(100 + 3) * 8 = 824`, so bits consumed does not equal
`(section_length + 3) * 8` on every accepted section. -/
theorem C2_counterexample :
    (parse c2buf).map (fun p => (p.2.pos, p.1.header.section_length)) =
      some (168, 100) ∧
    c2buf.length * 8 = 168 ∧ ¬ (168 = (100 + 3) * 8) :=
  ⟨by decide, by decide, by decide⟩

/-- C2 (amended): on every section `Parse` accepts, the reads after the
descriptor loop are exactly the optional alignment stuffing and `e_crc_32`
(present iff `encrypted_packet`) followed by the 32-bit `crc_32` — the final
position exceeds the descriptor-loop end position by
`8 * alignment_stuffing_bytes_length + 64` bits when encrypted and by 32 bits
otherwise.  The total bit count is, however, never compared against
`(section_length + 3) * 8` and can differ from it (`C2_counterexample`);
moreover the stuffing length is derived from `bits_available()` (bytes
remaining, not bytes read). -/
theorem C2_tail_structure (buf : List Nat) (s : splice_info_section_t)
    (r' : BitReader) (h : parse buf = some (s, r')) :
    ∃ body r0, parseBody buf = some (body, r0) ∧ body.header = s.header ∧
      r'.pos = r0.pos +
        (if s.header.encrypted_packet ≠ 0 then
          8 * s.alignment_stuffing_bytes_length + 64
        else 32) := by
  unfold parse at h
  obtain ⟨⟨body, r0⟩, h1, h⟩ := optionBind_some (h : _ >>= _ = _)
  rw [Option.map_eq_some'] at h
  obtain ⟨⟨t, r1⟩, ht, he⟩ := h
  obtain ⟨hs, hr⟩ := Prod.mk.injEq .. ▸ he
  refine ⟨body, r0, h1, ?_, ?_⟩
  · rw [← hs]
  · subst hr
    have := parseTail_pos ht
    rw [← hs]
    exact this

/-- C2, witness: the amended theorem applied to the concrete parse of
`c2buf`. -/
theorem C2_witness :
    ∃ body r0, parseBody c2buf = some (body, r0) ∧ body.header = c2sec.header ∧
      c2rdr.pos = r0.pos +
        (if c2sec.header.encrypted_packet ≠ 0 then
          8 * c2sec.alignment_stuffing_bytes_length + 64
        else 32) :=
  C2_tail_structure c2buf c2sec c2rdr (by decide)

/-! # Claim C4 -/

/-- Accounting invariant of the descriptor loop: on success, the
`descriptor_length + 2` decrements of the processed descriptors sum to the
difference between the initial and final `loop_remaining`, and exactly the
tag-`0x02` descriptors produced a `segmentation_descriptor` entry (in
order). -/
theorem descriptorLoop_sum {fuel : Nat} {remaining : Int} {r : BitReader}
    {procs : List (Nat × Nat)} {descs : List segmentation_descriptor_t}
    {rem : Int} {r' : BitReader}
    (h : descriptorLoop fuel remaining r = some (procs, descs, rem, r')) :
    (procs.map (fun p => (p.2 : Int) + 2)).sum = remaining - rem ∧
    descs.length = procs.countP (fun p => p.1 = 0x02) := by
  induction fuel generalizing remaining r procs descs rem r' with
  | zero =>
    unfold descriptorLoop at h
    split at h
    · cases h
    · simp only [Option.some.injEq, Prod.mk.injEq] at h
      obtain ⟨hp, hd, hrem, -⟩ := h
      subst hp
      subst hd
      subst hrem
      simp
  | succ fuel ih =>
    unfold descriptorLoop at h
    split at h
    case isFalse =>
      simp only [Option.some.injEq, Prod.mk.injEq] at h
      obtain ⟨hp, hd, hrem, -⟩ := h
      subst hp
      subst hd
      subst hrem
      simp
    case isTrue =>
      obtain ⟨⟨tag, r1⟩, h1, h⟩ := optionBind_some h
      obtain ⟨⟨len, r2⟩, h2, h⟩ := optionBind_some h
      obtain ⟨⟨ident, r3⟩, h3, h⟩ := optionBind_some h
      dsimp only at h
      split at h
      next htag =>
        obtain ⟨r4, h4, h⟩ := optionBind_some h
        obtain ⟨⟨procs1, descs1, rem1, r5⟩, h5, h⟩ := optionBind_some h
        simp only [Option.pure_def, Option.some.injEq, Prod.mk.injEq] at h
        obtain ⟨hp, hd, hrem, -⟩ := h
        subst hp
        subst hd
        subst hrem
        obtain ⟨hsum, hcnt⟩ := ih h5
        refine ⟨?_, ?_⟩
        · simp only [List.map_cons, List.sum_cons, hsum]
          omega
        · rw [List.countP_cons_of_neg, hcnt]
          simp [htag]
      next htag =>
        obtain ⟨⟨sd, r4⟩, h4, h⟩ := optionBind_some h
        obtain ⟨⟨procs1, descs1, rem1, r5⟩, h5, h⟩ := optionBind_some h
        simp only [Option.pure_def, Option.some.injEq, Prod.mk.injEq] at h
        obtain ⟨hp, hd, hrem, -⟩ := h
        subst hp
        subst hd
        subst hrem
        obtain ⟨hsum, hcnt⟩ := ih h5
        refine ⟨?_, ?_⟩
        · simp only [List.map_cons, List.sum_cons, hsum]
          omega
        · rw [List.countP_cons_of_pos, List.length_cons, hcnt]
          simp at htag
          simp [htag]

/-- C4, counterexample: on `c4buf` the parse succeeds and the loop accounting
zeroes out (`descriptor_loop_length = 22`, one descriptor with
`descriptor_length = 20`), yet the descriptor loop advances the reader from
bit 136 to bit 224, consuming 88 bits = 11 bytes rather than the declared 22
bytes: a tag-`0x02` descriptor's actual consumption is fixed by its content,
not by `descriptor_length`. -/
theorem C4_counterexample :
    (parse c4buf).isSome = true ∧
    (parseBody c4buf).map
      (fun p => (p.1.descriptor_loop_length, p.1.descriptor_trace)) =
      some (22, [(2, 20)]) ∧
    (parseSectionHeader (BitReader.ofBytes c4buf)).map (fun p => p.2.pos) =
      some 112 ∧
    (parseSpliceCommand 6 ⟨bytesToNat c4buf, 8 * c4buf.length, 112⟩).map
      (fun p => p.2.pos) = some 120 ∧
    (descriptorLoop 23 22 ⟨bytesToNat c4buf, 8 * c4buf.length, 136⟩).map
      (fun q => q.2.2.2.pos) = some 224 ∧
    ¬ (224 - 136 = 8 * 22) :=
  ⟨by decide, by decide, by decide, by decide, by decide, by decide⟩

/-- C4 (amended): for every section `Parse` accepts, the descriptor loop's
accounting consumes exactly `descriptor_loop_length` bytes — the
`descriptor_length + 2` charges of the processed descriptors sum to it, and a
mismatch makes `Parse` fail — with non-`0x02` descriptors skipped
(`descriptor_length - 4` bytes after the identifier) and contributing no
`SegmentationDescriptor`, and each tag-`0x02` descriptor parsed into the next
slot in order; the bytes a tag-`0x02` descriptor actually occupies are,
however, not checked against its `descriptor_length`
(`C4_counterexample`). -/
theorem C4_loop_accounting (buf : List Nat) (body : SectionPrefix)
    (r : BitReader) (h : parseBody buf = some (body, r)) :
    (body.descriptor_trace.map (fun p => (p.2 : Int) + 2)).sum =
      (body.descriptor_loop_length : Int) ∧
    body.segmentation_descriptor.length =
      body.descriptor_trace.countP (fun p => p.1 = 0x02) := by
  unfold parseBody at h
  obtain ⟨⟨hd, r1⟩, h1, h⟩ := optionBind_some h
  obtain ⟨⟨cmd, r2⟩, h2, h⟩ := optionBind_some h
  obtain ⟨⟨ll, r3⟩, h3, h⟩ := optionBind_some h
  dsimp only at h
  split at h
  next =>
    obtain ⟨⟨procs, descs, rem, r4⟩, h4, h⟩ := optionBind_some h
    dsimp only at h
    split at h
    next hrem =>
      simp only [Option.pure_def, Option.some.injEq, Prod.mk.injEq] at h
      obtain ⟨hbody, -⟩ := h
      subst hbody
      obtain ⟨hsum, hcnt⟩ := descriptorLoop_sum h4
      subst hrem
      exact ⟨by simpa using hsum, by simpa using hcnt⟩
    next => cases h
  next => cases h

/-- C4, witness: the amended theorem applied to the concrete parse of
`c4buf`. -/
theorem C4_witness :
    (c4body.descriptor_trace.map (fun p => (p.2 : Int) + 2)).sum =
      (c4body.descriptor_loop_length : Int) ∧
    c4body.segmentation_descriptor.length =
      c4body.descriptor_trace.countP (fun p => p.1 = 0x02) :=
  C4_loop_accounting c4buf c4body c4rdr (by decide)

/-! # Claim C5 -/

/-- C5: a section whose `splice_command_type` is neither 5 (`splice_insert`)
nor 6 (`time_signal`) makes `Parse` fail with no `(pid, section)` callback
(the section is dropped), and on every successful parse the callback fires
exactly once with the decoded section. -/
theorem C5_unsupported_command_dropped :
    (∀ buf pid (hd : SectionHeader) r,
       parseSectionHeader (BitReader.ofBytes buf) = some (hd, r) →
       hd.splice_command_type ≠ 5 → hd.splice_command_type ≠ 6 →
       parse buf = none ∧ parseCallbacks pid buf = []) ∧
    (∀ buf pid s r, parse buf = some (s, r) →
       parseCallbacks pid buf = [(pid, s)]) := by
  constructor
  · intro buf pid hd r hh h5 h6
    have hb : parseBody buf = none := by
      unfold parseBody
      rw [hh]
      simp [parseSpliceCommand, h5, h6]
    have hp : parse buf = none := by
      unfold parse
      rw [hb]
      rfl
    exact ⟨hp, by simp [parseCallbacks, hp]⟩
  · intro buf pid s r h
    simp [parseCallbacks, h]

/-- C5, witness: the 14-byte buffer `c5buf` declares command type 7; its parse
fails and invokes no callback. -/
theorem C5_witness : parse c5buf = none ∧ parseCallbacks 9 c5buf = [] :=
  C5_unsupported_command_dropped.1 c5buf 9 c5hdr c5rdr (by decide) (by decide)
    (by decide)

/-! # Claim C10 -/

set_option maxRecDepth 100000 in
/-- C10: the descriptor-loop guard accepts `c10buf`
(`descriptor_loop_length = 20 ≤ sizeof(segmentation_descriptor_t) * 8`), yet
the parse succeeds after writing ten segmentation descriptors — indices 8 and
9 lie beyond the 8-entry `segmentation_descriptor` array, so the C code writes
out of bounds: the claimed in-bounds property fails and the code contradicts
its own guard comment. -/
theorem C10_descriptor_overflow :
    (parse c10buf).map
      (fun p => (p.1.descriptor_loop_length,
                 p.1.segmentation_descriptor_count)) = some (20, 10) ∧
    20 ≤ sizeof_segmentation_descriptor_t * 8 ∧
    segmentation_descriptor_capacity < 10 :=
  ⟨by decide, by decide, by decide⟩

/-! # Claim C9 -/

/-- C9, counterexample: a section split over two TS packets is never
reassembled.  The PUSI call hands only the first packet's bytes to the ES
parser (where the parse fails for lack of bits); the follow-up call with
PUSI false is ignored — it returns `true`, leaves the framer state unchanged,
and contributes no bytes — although the two fragments together form a section
the parser accepts. -/
theorem C9_counterexample :
    tsSectionParse tsSectionDataInit true (0 :: c9part1) =
      (false, tsSectionDataInit, [c9part1]) ∧
    tsSectionParse tsSectionDataInit false c9part2 =
      (true, tsSectionDataInit, []) ∧
    (parse c9part1).isSome = false ∧
    (parse (c9part1 ++ c9part2)).isSome = true :=
  ⟨by decide, by decide, by decide, by decide⟩

/-- C9 (amended): the framer buffers nothing.  `wait_for_pusi_` starts `true`
and no code path changes the framer state, so every call with
`payload_unit_start_indicator` false is ignored (`return true`, ES parser not
invoked); a PUSI call skips the pointer field and passes that single packet's
remaining payload directly to the ES parser, so a section must fit within one
TS payload to be parsed. -/
theorem C9_no_buffering (st : TsSectionData) (buf : List Nat) :
    (st.wait_for_pusi = true → tsSectionParse st false buf = (true, st, [])) ∧
    (tsSectionParse st true buf).2.2 = [(buf.drop 1).drop (buf.headD 0)] ∧
    (tsSectionParse st true buf).2.1 = st := by
  refine ⟨fun hw => ?_, ?_, ?_⟩
  · simp [tsSectionParse, hw]
  · simp [tsSectionParse]
  · simp [tsSectionParse]

/-- C9, witness: the amended theorem applied to a fresh framer and a
continuation payload. -/
theorem C9_witness :
    tsSectionParse tsSectionDataInit false [0xAB, 0xCD] =
      (true, tsSectionDataInit, []) :=
  (C9_no_buffering tsSectionDataInit [0xAB, 0xCD]).1 (by decide)

/-! # Claim C3 -/

/-- C3, counterexample: an audio sample at pts 24000 with duration 0 in a
48 kHz stream.  Its scaled midpoint is 24000 ticks = 0.5 s, but
`TimeInSeconds` divides the integers first (`(scaled_time) / time_scale`
inside the `static_cast<double>`), yielding 0, not the real-valued quotient
0.5. -/
theorem C3_counterexample :
    GetScaledTime audioInfo48k c3sample = 24000 ∧
    TimeInSeconds audioInfo48k c3sample = 0 ∧
    (24000 : ℚ) / 48000 = 1 / 2 ∧ (0 : ℚ) ≠ 1 / 2 :=
  ⟨by decide, by decide, by norm_num, by norm_num⟩

/-- C3 (amended): for an audio sample the ordering time is the midpoint
`pts + duration / 2` computed in integer ticks (C++ truncating division), and
`TimeInSeconds` returns the *floor* of the real quotient of that scaled time
by the stream's time scale (for the non-negative times that occur), because
the division is integer division performed before the cast to `double`
(`C3_counterexample`). -/
theorem C3_audio_midpoint_floor (info : StreamInfo) (pts dur : Int)
    (k : Bool) (ha : info.stream_type = .kStreamAudio)
    (hnn : 0 ≤ pts + Int.tdiv dur 2) :
    GetScaledTime info (.media pts dur k) = pts + Int.tdiv dur 2 ∧
    TimeInSeconds info (.media pts dur k) =
      ((⌊((pts + Int.tdiv dur 2 : Int) : ℚ) / ((info.time_scale : Nat) : ℚ)⌋ :
        Int) : ℚ) := by
  have hg : GetScaledTime info (.media pts dur k) = pts + Int.tdiv dur 2 := by
    simp [GetScaledTime, ha]
  refine ⟨hg, ?_⟩
  unfold TimeInSeconds
  rw [hg, Rat.floor_intCast_div_natCast]
  rw [Int.tdiv_eq_ediv hnn (by positivity)]

/-- C3, witness: the amended theorem at the concrete sample. -/
theorem C3_witness :
    GetScaledTime audioInfo48k c3sample = 24000 + Int.tdiv 0 2 ∧
    TimeInSeconds audioInfo48k c3sample =
      ((⌊((24000 + Int.tdiv 0 2 : Int) : ℚ) /
         ((audioInfo48k.time_scale : Nat) : ℚ)⌋ : Int) : ℚ) :=
  C3_audio_midpoint_floor audioInfo48k 24000 0 false (by decide) (by decide)

/-! # Claim C8 -/

/-- C8: an SCTE-35 event whose polarity does not match the stream's cue state
— a START `segmentation_type_id` (`0x30/0x32/0x34/0x36`) while the stream is
in an ad, an END one (`0x31/0x33/0x35/0x37`) while it is in program, or a
type that is neither — is ignored: `OnSignal` adds nothing to the sync-point
queue, leaves the hint and every stream state unchanged, and returns
`Status::OK`. -/
theorem C8_wrong_polarity_ignored (h : CueAlignmentHandler) (idx : Nat)
    (ev : Scte35Event)
    (hpol : ¬ ((ev.descriptor.segmentation_type_id ∈
                  ([0x30, 0x32, 0x34, 0x36] : List Nat) ∧
                (h.stream_states.getD idx default).state = .kStateInProgram) ∨
               (ev.descriptor.segmentation_type_id ∈
                  ([0x31, 0x33, 0x35, 0x37] : List Nat) ∧
                (h.stream_states.getD idx default).state = .kStateInAd))) :
    OnSignal h idx ev = (h, .ok) := by
  unfold OnSignal
  rw [if_neg]
  intro hc
  apply hpol
  rcases hc with ⟨hs, hst⟩ | ⟨he, hst⟩
  · refine Or.inl ⟨?_, hst⟩
    rcases hs with h1 | h1 | h1 | h1 <;> simp [h1]
  · refine Or.inr ⟨?_, hst⟩
    rcases he with h1 | h1 | h1 | h1 <;> simp [h1]

/-- C8, witness: an END event (`0x31`) delivered to a stream that is still in
program is ignored. -/
theorem C8_witness : OnSignal c8handler 0 c8event = (c8handler, .ok) :=
  C8_wrong_polarity_ignored c8handler 0 c8event (by decide)

/-! # Claim C1 -/

/-- Step equation for the merge loop when both FIFOs are non-empty. -/
theorem mergeLoop_cons_cons (info : StreamInfo) (fuel : Nat) (c0 : CueEvent)
    (cs : List CueEvent) (s : SampleData) (ss : List SampleData) :
    mergeLoop info (fuel + 1) (c0 :: cs) (s :: ss) =
      if TimeInSeconds info s < c0.time_in_seconds then
        (DispatchedData.sample s :: (mergeLoop info fuel (c0 :: cs) ss).1,
         (mergeLoop info fuel (c0 :: cs) ss).2)
      else
        (DispatchedData.cue c0 :: (mergeLoop info fuel cs (s :: ss)).1,
         (mergeLoop info fuel cs (s :: ss)).2) := by
  rw [mergeLoop]

/-- Every cue in the merge-loop output came from the pending cue FIFO. -/
theorem mergeLoop_cue_mem {info : StreamInfo} {fuel : Nat}
    {cues : List CueEvent} {samples : List SampleData} {c : CueEvent}
    (hc : DispatchedData.cue c ∈ (mergeLoop info fuel cues samples).1) :
    c ∈ cues := by
  induction fuel generalizing cues samples with
  | zero => simp [mergeLoop] at hc
  | succ fuel ih =>
    match cues, samples with
    | [], samples => simp [mergeLoop] at hc
    | c0 :: cs, [] => simp [mergeLoop] at hc
    | c0 :: cs, s :: ss =>
      rw [mergeLoop_cons_cons] at hc
      split at hc
      · rcases List.mem_cons.mp hc with h1 | h1
        · cases h1
        · exact ih h1
      · rcases List.mem_cons.mp hc with h1 | h1
        · cases h1
          exact List.mem_cons_self _ _
        · exact List.mem_cons_of_mem _ (ih h1)

/-- With the pending cues in non-decreasing time order, the merge loop's
dispatch sequence satisfies the sample-before-cue property. -/
theorem mergeLoop_OK {info : StreamInfo} {fuel : Nat} {cues : List CueEvent}
    {samples : List SampleData}
    (hsorted : cues.Pairwise
      (fun a b => a.time_in_seconds ≤ b.time_in_seconds)) :
    sampleBeforeCueOK info (mergeLoop info fuel cues samples).1 := by
  induction fuel generalizing cues samples with
  | zero => simp [mergeLoop, sampleBeforeCueOK]
  | succ fuel ih =>
    match cues, samples with
    | [], samples => simp [mergeLoop, sampleBeforeCueOK]
    | c0 :: cs, [] => simp [mergeLoop, sampleBeforeCueOK]
    | c0 :: cs, s :: ss =>
      rw [mergeLoop_cons_cons]
      split
      case isTrue hlt =>
        refine ⟨?_, ih hsorted⟩
        intro c hc
        rcases List.mem_cons.mp (mergeLoop_cue_mem hc) with rfl | hmem
        · exact hlt
        · exact lt_of_lt_of_le hlt ((List.pairwise_cons.mp hsorted).1 c hmem)
      case isFalse =>
        exact ih (List.pairwise_cons.mp hsorted).2

/-- Step equation for the drain loop on a non-empty FIFO. -/
theorem drainLoop_cons (hint : Option ℚ) (info : StreamInfo) (s : SampleData)
    (ss : List SampleData) :
    drainLoop hint info (s :: ss) =
      if ltHint (TimeInSeconds info s) hint then
        (DispatchedData.sample s :: (drainLoop hint info ss).1,
         (drainLoop hint info ss).2)
      else
        ([], s :: ss) := by
  rw [drainLoop]

/-- The drain loop dispatches samples only. -/
theorem drainLoop_no_cue {hint : Option ℚ} {info : StreamInfo}
    {samples : List SampleData} {c : CueEvent}
    (hc : DispatchedData.cue c ∈ (drainLoop hint info samples).1) : False := by
  induction samples with
  | nil => simp [drainLoop] at hc
  | cons s ss ih =>
    rw [drainLoop_cons] at hc
    split at hc
    · rcases List.mem_cons.mp hc with h1 | h1
      · cases h1
      · exact ih h1
    · simp at hc

/-- A dispatch sequence without cues vacuously satisfies the ordering
property. -/
theorem sampleBeforeCueOK_of_no_cue {info : StreamInfo}
    {out : List DispatchedData}
    (hnc : ∀ c, DispatchedData.cue c ∉ out) : sampleBeforeCueOK info out := by
  induction out with
  | nil => trivial
  | cons x t ih =>
    cases x with
    | sample s =>
      exact ⟨fun c hc => absurd (List.mem_cons_of_mem _ hc) (hnc c),
             ih fun c hc => hnc c (List.mem_cons_of_mem _ hc)⟩
    | cue c =>
      exact absurd (List.mem_cons_self _ _) (hnc c)

/-- The ordering property is preserved by appending a cue-free suffix. -/
theorem sampleBeforeCueOK_append {info : StreamInfo}
    {out1 out2 : List DispatchedData} (h1 : sampleBeforeCueOK info out1)
    (hnc : ∀ c, DispatchedData.cue c ∉ out2) :
    sampleBeforeCueOK info (out1 ++ out2) := by
  induction out1 with
  | nil => simpa using sampleBeforeCueOK_of_no_cue hnc
  | cons x t ih =>
    cases x with
    | sample s =>
      refine ⟨?_, ih h1.2⟩
      intro c hc
      rcases List.mem_append.mp hc with hc | hc
      · exact h1.1 c hc
      · exact absurd hc (hnc c)
    | cue c => exact ih h1

/-- The full `RunThroughSamples` dispatch sequence satisfies the ordering
property whenever the pending cues are in non-decreasing time order. -/
theorem runThroughSamples_OK (hint : Option ℚ) (st : StreamState)
    (hsorted : st.cues.Pairwise
      (fun a b => a.time_in_seconds ≤ b.time_in_seconds)) :
    sampleBeforeCueOK st.info (RunThroughSamples hint st).1 := by
  show sampleBeforeCueOK st.info
    ((mergeLoop st.info (st.cues.length + st.samples.length) st.cues
        st.samples).1 ++
     (drainLoop hint st.info
        (mergeLoop st.info (st.cues.length + st.samples.length) st.cues
          st.samples).2.2).1)
  exact sampleBeforeCueOK_append (mergeLoop_OK hsorted)
    (fun c hc => drainLoop_no_cue hc)

/-- Splitting form of the ordering property. -/
theorem sampleBeforeCueOK_split {info : StreamInfo} :
    ∀ (l1 out : List DispatchedData) (s : SampleData)
      (l2 : List DispatchedData) (c : CueEvent) (l3 : List DispatchedData),
      sampleBeforeCueOK info out →
      out = l1 ++ .sample s :: l2 ++ .cue c :: l3 →
      TimeInSeconds info s < c.time_in_seconds := by
  intro l1
  induction l1 with
  | nil =>
    intro out s l2 c l3 hok heq
    subst heq
    exact hok.1 c (by simp)
  | cons x t ih =>
    intro out s l2 c l3 hok heq
    subst heq
    cases x with
    | sample s1 =>
      exact ih (t ++ .sample s :: l2 ++ .cue c :: l3) s l2 c l3 hok.2 rfl
    | cue c1 =>
      exact ih (t ++ .sample s :: l2 ++ .cue c :: l3) s l2 c l3 hok rfl

/-- C1: in any dispatch sequence produced by one `RunThroughSamples` call
(with the pending cue FIFO in non-decreasing time order, as the sync-point
queue delivers it), every sample dispatched before a cue at time `t` has
`sample_time < t`; the merge loop dispatches the front sample exactly when
`sample_time < cue.time` and otherwise dispatches the cue first
(`mergeLoop_cons_cons`). -/
theorem C1_merge_dispatch_order (hint : Option ℚ) (st : StreamState)
    (hsorted : st.cues.Pairwise
      (fun a b => a.time_in_seconds ≤ b.time_in_seconds))
    (l1 : List DispatchedData) (s : SampleData) (l2 : List DispatchedData)
    (c : CueEvent) (l3 : List DispatchedData)
    (hsplit : (RunThroughSamples hint st).1 =
      l1 ++ .sample s :: l2 ++ .cue c :: l3) :
    TimeInSeconds st.info s < c.time_in_seconds :=
  sampleBeforeCueOK_split l1 (RunThroughSamples hint st).1 s l2 c l3
    (runThroughSamples_OK hint st hsorted) hsplit

/-- C1, witness: on `c1state` the dispatch order is sample (0 s), cue (1 s),
sample (2 s); the theorem instantiated at the first sample and the cue. -/
theorem C1_witness :
    TimeInSeconds c1state.info (.media 0 0 true) < c1cue.time_in_seconds :=
  C1_merge_dispatch_order none c1state (by simp [c1state, c1cue])
    [] (.media 0 0 true) [] c1cue [.sample (.media 2 0 false)] (by decide)

/-! # Claim C7 -/

/-- C7: calling `WriteToFile` twice with no intervening mutation produces
byte-identical output and leaves the state fixed: the first call may derive
and store the target duration from the longest segment duration, after which
the state no longer changes and the rendered content — a pure function of the
state — is the same on both calls. -/
theorem C7_write_idempotent (p : MediaPlaylist) :
    (WriteToFile (WriteToFile p).2).1 = (WriteToFile p).1 ∧
    (WriteToFile (WriteToFile p).2).2 = (WriteToFile p).2 := by
  unfold WriteToFile SetTargetDuration
  by_cases h : p.target_duration_set <;> simp [h]

/-! # Claim C6 -/

/-- Unfolding equations of the eviction walk, one per entry shape. -/
theorem slideLoop_nil (limit : ℚ) (keys : List HlsEntry) (prev : EntryType)
    (disc seq : Int) (removed : List ℚ) :
    slideLoop limit [] keys prev disc seq removed =
      some ([], keys, disc, seq, removed) := rfl

theorem slideLoop_key (limit : ℚ) (m : EncryptionMethod)
    (url kid iv kf kfv : String) (rest keys : List HlsEntry)
    (prev : EntryType) (disc seq : Int) (removed : List ℚ) :
    slideLoop limit (.encryptionInfo m url kid iv kf kfv :: rest) keys prev
        disc seq removed =
      slideLoop limit rest
        ((if prev ≠ .kExtKey then [] else keys) ++
          [.encryptionInfo m url kid iv kf kfv]) .kExtKey disc seq removed :=
  rfl

theorem slideLoop_disc (limit : ℚ) (rest keys : List HlsEntry)
    (prev : EntryType) (disc seq : Int) (removed : List ℚ) :
    slideLoop limit (.discontinuity :: rest) keys prev disc seq removed =
      slideLoop limit rest keys .kExtDiscontinuity (disc + 1) seq removed :=
  rfl

theorem slideLoop_exit (limit : ℚ) (t : SpliceType) (du : Option ℚ)
    (ev : Option Nat) (up : String) (sg : Option Nat) (fl : Nat)
    (rest keys : List HlsEntry) (prev : EntryType) (disc seq : Int)
    (removed : List ℚ) :
    slideLoop limit (.signalExit t du ev up sg fl :: rest) keys prev disc seq
        removed =
      slideLoop limit rest keys .kExtSignalExit disc seq removed := rfl

theorem slideLoop_span (limit : ℚ) (t : SpliceType) (pos : ℚ)
    (du : Option ℚ) (rest keys : List HlsEntry) (prev : EntryType)
    (disc seq : Int) (removed : List ℚ) :
    slideLoop limit (.signalSpan t pos du :: rest) keys prev disc seq
        removed =
      slideLoop limit rest keys .kExtSignalSpan disc seq removed := rfl

theorem slideLoop_return (limit : ℚ) (t : SpliceType) (du : Option ℚ)
    (rest keys : List HlsEntry) (prev : EntryType) (disc seq : Int)
    (removed : List ℚ) :
    slideLoop limit (.signalReturn t du :: rest) keys prev disc seq removed =
      slideLoop limit rest keys .kExtSignalReturn disc seq removed := rfl

theorem slideLoop_placement (limit : ℚ) (rest keys : List HlsEntry)
    (prev : EntryType) (disc seq : Int) (removed : List ℚ) :
    slideLoop limit (.placementOpportunity :: rest) keys prev disc seq
      removed = none := rfl

theorem slideLoop_inf (limit : ℚ) (f : String) (s d : ℚ) (u : Bool)
    (b sz pr : Nat) (rest keys : List HlsEntry) (prev : EntryType)
    (disc seq : Int) (removed : List ℚ) :
    slideLoop limit (.segmentInfo f s d u b sz pr :: rest) keys prev disc seq
        removed =
      if limit < s + d then
        some (.segmentInfo f s d u b sz pr :: rest, keys, disc, seq, removed)
      else
        slideLoop limit rest keys .kExtInf disc (seq + 1) (removed ++ [s]) :=
  rfl

/-- The eviction walk terminates with a result on placement-free playlists. -/
theorem slideLoop_some (limit : ℚ) :
    ∀ (l keys : List HlsEntry) (prev : EntryType) (disc seq : Int)
      (removed : List ℚ),
      (∀ e ∈ l, HlsEntry.type e ≠ EntryType.kExtPlacementOpportunity) →
      ∃ out, slideLoop limit l keys prev disc seq removed = some out := by
  intro l
  induction l with
  | nil =>
    intro keys prev disc seq removed _
    exact ⟨_, slideLoop_nil ..⟩
  | cons e rest ih =>
    intro keys prev disc seq removed hnp
    have hrest := fun x hx => hnp x (List.mem_cons_of_mem _ hx)
    cases e with
    | segmentInfo f s d u b sz pr =>
      by_cases hlt : limit < s + d
      · exact ⟨_, by rw [slideLoop_inf, if_pos hlt]⟩
      · obtain ⟨out, hout⟩ := ih _ .kExtInf disc (seq + 1) (removed ++ [s]) hrest
        exact ⟨out, by rw [slideLoop_inf, if_neg hlt, hout]⟩
    | encryptionInfo m url kid iv kf kfv =>
      obtain ⟨out, hout⟩ := ih _ .kExtKey disc seq removed hrest
      exact ⟨out, by rw [slideLoop_key, hout]⟩
    | discontinuity =>
      obtain ⟨out, hout⟩ := ih _ .kExtDiscontinuity (disc + 1) seq removed hrest
      exact ⟨out, by rw [slideLoop_disc, hout]⟩
    | placementOpportunity =>
      exact absurd rfl (hnp _ (List.mem_cons_self _ _))
    | signalExit t du ev up sg fl =>
      obtain ⟨out, hout⟩ := ih _ .kExtSignalExit disc seq removed hrest
      exact ⟨out, by rw [slideLoop_exit, hout]⟩
    | signalSpan t pos du =>
      obtain ⟨out, hout⟩ := ih _ .kExtSignalSpan disc seq removed hrest
      exact ⟨out, by rw [slideLoop_span, hout]⟩
    | signalReturn t du =>
      obtain ⟨out, hout⟩ := ih _ .kExtSignalReturn disc seq removed hrest
      exact ⟨out, by rw [slideLoop_return, hout]⟩

/-- The entries surviving the eviction walk are exactly the suffix from the
first `kExtInf` whose `start + duration` exceeds the limit. -/
theorem slideLoop_remaining (limit : ℚ) :
    ∀ (l keys : List HlsEntry) (prev : EntryType) (disc seq : Int)
      (removed : List ℚ)
      (out : List HlsEntry × List HlsEntry × Int × Int × List ℚ),
      slideLoop limit l keys prev disc seq removed = some out →
      out.1 = l.dropWhile (fun e => ! isExceedingInf limit e) := by
  intro l
  induction l with
  | nil =>
    intro keys prev disc seq removed out h
    rw [slideLoop_nil] at h
    cases h
    simp
  | cons e rest ih =>
    intro keys prev disc seq removed out h
    cases e with
    | segmentInfo f s d u b sz pr =>
      rw [slideLoop_inf] at h
      split at h
      case isTrue hlt =>
        cases h
        simp only [List.dropWhile_cons, isExceedingInf]
        rw [if_neg (by simp [hlt])]
      case isFalse hlt =>
        rw [ih _ _ _ _ _ _ h]
        simp only [List.dropWhile_cons, isExceedingInf]
        rw [if_pos (by simp [hlt])]
    | encryptionInfo m url kid iv kf kfv =>
      rw [slideLoop_key] at h
      rw [ih _ _ _ _ _ _ h]
      simp [List.dropWhile_cons, isExceedingInf]
    | discontinuity =>
      rw [slideLoop_disc] at h
      rw [ih _ _ _ _ _ _ h]
      simp [List.dropWhile_cons, isExceedingInf]
    | placementOpportunity =>
      rw [slideLoop_placement] at h
      cases h
    | signalExit t du ev up sg fl =>
      rw [slideLoop_exit] at h
      rw [ih _ _ _ _ _ _ h]
      simp [List.dropWhile_cons, isExceedingInf]
    | signalSpan t pos du =>
      rw [slideLoop_span] at h
      rw [ih _ _ _ _ _ _ h]
      simp [List.dropWhile_cons, isExceedingInf]
    | signalReturn t du =>
      rw [slideLoop_return] at h
      rw [ih _ _ _ _ _ _ h]
      simp [List.dropWhile_cons, isExceedingInf]

/-- The key buffer the eviction walk returns holds `kExtKey` entries only. -/
theorem slideLoop_keys (limit : ℚ) :
    ∀ (l keys : List HlsEntry) (prev : EntryType) (disc seq : Int)
      (removed : List ℚ)
      (out : List HlsEntry × List HlsEntry × Int × Int × List ℚ),
      (∀ e ∈ keys, HlsEntry.type e = EntryType.kExtKey) →
      slideLoop limit l keys prev disc seq removed = some out →
      ∀ e ∈ out.2.1, HlsEntry.type e = EntryType.kExtKey := by
  intro l
  induction l with
  | nil =>
    intro keys prev disc seq removed out hk h
    rw [slideLoop_nil] at h
    cases h
    exact hk
  | cons e rest ih =>
    intro keys prev disc seq removed out hk h
    cases e with
    | segmentInfo f s d u b sz pr =>
      rw [slideLoop_inf] at h
      split at h
      case isTrue =>
        cases h
        exact hk
      case isFalse =>
        exact ih _ _ _ _ _ _ hk h
    | encryptionInfo m url kid iv kf kfv =>
      rw [slideLoop_key] at h
      refine ih _ _ _ _ _ _ ?_ h
      intro x hx
      rcases List.mem_append.mp hx with hx | hx
      · split at hx
        · cases hx
        · exact hk x hx
      · rcases List.mem_cons.mp hx with rfl | hx
        · rfl
        · cases hx
    | discontinuity =>
      rw [slideLoop_disc] at h
      exact ih _ _ _ _ _ _ hk h
    | placementOpportunity =>
      rw [slideLoop_placement] at h
      cases h
    | signalExit t du ev up sg fl =>
      rw [slideLoop_exit] at h
      exact ih _ _ _ _ _ _ hk h
    | signalSpan t pos du =>
      rw [slideLoop_span] at h
      exact ih _ _ _ _ _ _ hk h
    | signalReturn t du =>
      rw [slideLoop_return] at h
      exact ih _ _ _ _ _ _ hk h

/-- A prefix of `kExtKey` entries does not affect the first `kExtInf`. -/
theorem firstExtInfStart_append_keys :
    ∀ (keys rest : List HlsEntry),
      (∀ e ∈ keys, HlsEntry.type e = EntryType.kExtKey) →
      firstExtInfStart (keys ++ rest) = firstExtInfStart rest := by
  intro keys
  induction keys with
  | nil => intro rest _; rfl
  | cons e t ih =>
    intro rest hk
    have ht := fun x hx => hk x (List.mem_cons_of_mem _ hx)
    have he := hk e (List.mem_cons_self _ _)
    cases e with
    | encryptionInfo m url kid iv kf kfv =>
      simpa [firstExtInfStart] using ih rest ht
    | segmentInfo f s d u b sz pr => cases he
    | discontinuity => cases he
    | placementOpportunity => cases he
    | signalExit t1 du ev up sg fl => cases he
    | signalSpan t1 pos du => cases he
    | signalReturn t1 du => cases he

/-- A playlist that contains a `kExtInf` entry has a first one, and it is a
member of the playlist. -/
theorem firstExtInfStart_some :
    ∀ l : List HlsEntry,
      (∃ f s d u b sz pr, HlsEntry.segmentInfo f s d u b sz pr ∈ l) →
      ∃ s0, firstExtInfStart l = some s0 ∧
        ∃ f d u b sz pr, HlsEntry.segmentInfo f s0 d u b sz pr ∈ l := by
  intro l
  induction l with
  | nil =>
    intro hex
    obtain ⟨f, s, d, u, b, sz, pr, hm⟩ := hex
    cases hm
  | cons e rest ih =>
    intro hex
    cases e with
    | segmentInfo f s d u b sz pr =>
      exact ⟨s, rfl, f, d, u, b, sz, pr, List.mem_cons_self _ _⟩
    | encryptionInfo m url kid iv kf kfv =>
      obtain ⟨f, s, d, u, b, sz, pr, hm⟩ := hex
      rcases List.mem_cons.mp hm with heq | hm
      · cases heq
      · obtain ⟨s0, h1, f1, d1, u1, b1, sz1, pr1, h2⟩ :=
          ih ⟨f, s, d, u, b, sz, pr, hm⟩
        exact ⟨s0, h1, f1, d1, u1, b1, sz1, pr1, List.mem_cons_of_mem _ h2⟩
    | discontinuity =>
      obtain ⟨f, s, d, u, b, sz, pr, hm⟩ := hex
      rcases List.mem_cons.mp hm with heq | hm
      · cases heq
      · obtain ⟨s0, h1, f1, d1, u1, b1, sz1, pr1, h2⟩ :=
          ih ⟨f, s, d, u, b, sz, pr, hm⟩
        exact ⟨s0, h1, f1, d1, u1, b1, sz1, pr1, List.mem_cons_of_mem _ h2⟩
    | placementOpportunity =>
      obtain ⟨f, s, d, u, b, sz, pr, hm⟩ := hex
      rcases List.mem_cons.mp hm with heq | hm
      · cases heq
      · obtain ⟨s0, h1, f1, d1, u1, b1, sz1, pr1, h2⟩ :=
          ih ⟨f, s, d, u, b, sz, pr, hm⟩
        exact ⟨s0, h1, f1, d1, u1, b1, sz1, pr1, List.mem_cons_of_mem _ h2⟩
    | signalExit t du ev up sg fl =>
      obtain ⟨f, s, d, u, b, sz, pr, hm⟩ := hex
      rcases List.mem_cons.mp hm with heq | hm
      · cases heq
      · obtain ⟨s0, h1, f1, d1, u1, b1, sz1, pr1, h2⟩ :=
          ih ⟨f, s, d, u, b, sz, pr, hm⟩
        exact ⟨s0, h1, f1, d1, u1, b1, sz1, pr1, List.mem_cons_of_mem _ h2⟩
    | signalSpan t pos du =>
      obtain ⟨f, s, d, u, b, sz, pr, hm⟩ := hex
      rcases List.mem_cons.mp hm with heq | hm
      · cases heq
      · obtain ⟨s0, h1, f1, d1, u1, b1, sz1, pr1, h2⟩ :=
          ih ⟨f, s, d, u, b, sz, pr, hm⟩
        exact ⟨s0, h1, f1, d1, u1, b1, sz1, pr1, List.mem_cons_of_mem _ h2⟩
    | signalReturn t du =>
      obtain ⟨f, s, d, u, b, sz, pr, hm⟩ := hex
      rcases List.mem_cons.mp hm with heq | hm
      · cases heq
      · obtain ⟨s0, h1, f1, d1, u1, b1, sz1, pr1, h2⟩ :=
          ih ⟨f, s, d, u, b, sz, pr, hm⟩
        exact ⟨s0, h1, f1, d1, u1, b1, sz1, pr1, List.mem_cons_of_mem _ h2⟩

/-- The latest-segment start time belongs to some `kExtInf` entry of the
playlist (when one exists). -/
theorem latestSegmentStartTime_mem (l : List HlsEntry)
    (hex : ∃ f s d u b sz pr, HlsEntry.segmentInfo f s d u b sz pr ∈ l) :
    ∃ f d u b sz pr,
      HlsEntry.segmentInfo f (LatestSegmentStartTime l) d u b sz pr ∈ l := by
  unfold LatestSegmentStartTime
  have hsome : (l.reverse.find? (fun e => HlsEntry.type e = .kExtInf)).isSome := by
    rw [List.find?_isSome]
    obtain ⟨f, s, d, u, b, sz, pr, hm⟩ := hex
    exact ⟨_, List.mem_reverse.mpr hm, by simp [HlsEntry.type]⟩
  obtain ⟨a, ha⟩ := Option.isSome_iff_exists.mp hsome
  have hp := List.find?_some ha
  have hmem := List.mem_reverse.mp (List.mem_of_find?_eq_some ha)
  rw [ha]
  cases a with
  | segmentInfo f s d u b sz pr => exact ⟨f, d, u, b, sz, pr, hmem⟩
  | encryptionInfo m url kid iv kf kfv => simp [HlsEntry.type] at hp
  | discontinuity => simp [HlsEntry.type] at hp
  | placementOpportunity => simp [HlsEntry.type] at hp
  | signalExit t du ev up sg fl => simp [HlsEntry.type] at hp
  | signalSpan t pos du => simp [HlsEntry.type] at hp
  | signalReturn t du => simp [HlsEntry.type] at hp

/-- C6: for a live playlist with positive `time_shift_buffer_depth` (and no
placement-opportunity entries, which the eviction walk cannot process),
`SlideWindow` stops evicting at the first `kExtInf` whose `start + duration`
exceeds `latest_start - depth`; consequently the latest segment start minus
the start of the first remaining `kExtInf` is at most
`time_shift_buffer_depth` plus the maximum segment duration. -/
theorem C6_sliding_window_bound (p : MediaPlaylist) (maxDur : ℚ)
    (hlive : p.hls_params.playlist_type = .kLive)
    (hdepth : 0 < p.hls_params.time_shift_buffer_depth)
    (hnp : ∀ e ∈ p.entries,
      HlsEntry.type e ≠ EntryType.kExtPlacementOpportunity)
    (hdur : ∀ f s d u b sz pr,
      HlsEntry.segmentInfo f s d u b sz pr ∈ p.entries →
      0 ≤ s ∧ 0 ≤ d ∧ d ≤ maxDur)
    (hex : ∃ f s d u b sz pr,
      HlsEntry.segmentInfo f s d u b sz pr ∈ p.entries) :
    ∃ q s0, SlideWindow p = some q ∧ firstExtInfStart q.entries = some s0 ∧
      LatestSegmentStartTime p.entries - s0 ≤
        p.hls_params.time_shift_buffer_depth + maxDur := by
  have hmax0 : 0 ≤ maxDur := by
    obtain ⟨f, s, d, u, b, sz, pr, hm⟩ := hex
    have h1 := hdur f s d u b sz pr hm
    linarith [h1.2.1, h1.2.2]
  unfold SlideWindow
  rw [if_neg (by push_neg; exact ⟨by linarith, hlive⟩)]
  by_cases hcd :
    LatestSegmentStartTime p.entries ≤ p.hls_params.time_shift_buffer_depth
  · rw [if_pos hcd]
    obtain ⟨s0, hfs, f, d, u, b, sz, pr, hm⟩ := firstExtInfStart_some p.entries hex
    have hs0 := (hdur f s0 d u b sz pr hm).1
    exact ⟨p, s0, rfl, hfs, by linarith⟩
  · rw [if_neg hcd]
    obtain ⟨out, hout⟩ := slideLoop_some
      (LatestSegmentStartTime p.entries - p.hls_params.time_shift_buffer_depth)
      p.entries [] .kExtInf p.discontinuity_sequence_number
      p.media_sequence_number p.removed_segment_start_times hnp
    obtain ⟨rest, keys, disc, seq, removed⟩ := out
    rw [hout]
    have hrest := slideLoop_remaining _ _ _ _ _ _ _ _ hout
    have hkeys := slideLoop_keys _ _ _ _ _ _ _ _ (by intro e he; cases he) hout
    dsimp only at hrest hkeys
    -- the last segment survives the walk, so the drop is a proper suffix
    obtain ⟨fl, dl, ul, bl, szl, prl, hml⟩ := latestSegmentStartTime_mem p.entries hex
    have hdl := hdur fl (LatestSegmentStartTime p.entries) dl ul bl szl prl hml
    have hne : p.entries.dropWhile
        (fun e => ! isExceedingInf
          (LatestSegmentStartTime p.entries -
            p.hls_params.time_shift_buffer_depth) e) ≠ [] := by
      intro hnil
      have h2 := List.dropWhile_eq_nil_iff.mp hnil _ hml
      simp only [isExceedingInf, Bool.not_eq_true'] at h2
      rw [decide_eq_false_iff_not] at h2
      have : LatestSegmentStartTime p.entries -
          p.hls_params.time_shift_buffer_depth <
          LatestSegmentStartTime p.entries + dl := by linarith [hdl.2.1]
      exact h2 this
    obtain ⟨e0, tail, hcons⟩ := List.exists_cons_of_ne_nil hne
    have hhead := List.head?_dropWhile_not
      (fun e => ! isExceedingInf
        (LatestSegmentStartTime p.entries -
          p.hls_params.time_shift_buffer_depth) e) p.entries
    rw [hcons] at hhead
    simp only [List.head?_cons, Bool.not_eq_false] at hhead
    have hmem0 : e0 ∈ p.entries :=
      (List.dropWhile_sublist _).subset (hcons ▸ List.mem_cons_self e0 tail)
    cases e0 with
    | segmentInfo f0 s0 d0 u0 b0 sz0 pr0 =>
      have hd0 := hdur f0 s0 d0 u0 b0 sz0 pr0 hmem0
      have hlt0 : LatestSegmentStartTime p.entries -
          p.hls_params.time_shift_buffer_depth < s0 + d0 := by
        simpa [isExceedingInf] using hhead
      refine ⟨_, s0, rfl, ?_, ?_⟩
      · show firstExtInfStart (keys ++ rest) = some s0
        rw [firstExtInfStart_append_keys keys rest hkeys, hrest, hcons]
        rfl
      · linarith [hd0.2.2]
    | encryptionInfo m url kid iv kf kfv => simp [isExceedingInf] at hhead
    | discontinuity => simp [isExceedingInf] at hhead
    | placementOpportunity => simp [isExceedingInf] at hhead
    | signalExit t du ev up sg flg => simp [isExceedingInf] at hhead
    | signalSpan t pos du => simp [isExceedingInf] at hhead
    | signalReturn t du => simp [isExceedingInf] at hhead

/-- C6, witness: on `c6playlist` (segments starting at 0, 10, 20, 40 s, all
10 s long, depth 30 s) the theorem applies with `maxDur = 10`. -/
theorem C6_witness :
    ∃ q s0, SlideWindow c6playlist = some q ∧
      firstExtInfStart q.entries = some s0 ∧
      LatestSegmentStartTime c6playlist.entries - s0 ≤
        c6playlist.hls_params.time_shift_buffer_depth + 10 := by
  refine C6_sliding_window_bound c6playlist 10 rfl (by norm_num [c6playlist]) ?_ ?_ ?_
  · intro e he
    simp only [c6playlist, List.mem_cons, List.not_mem_nil, or_false] at he
    rcases he with rfl | rfl | rfl | rfl <;> decide
  · intro f s d u b sz pr hm
    simp only [c6playlist, List.mem_cons, List.not_mem_nil, or_false,
      HlsEntry.segmentInfo.injEq] at hm
    rcases hm with ⟨-, rfl, rfl, -⟩ | ⟨-, rfl, rfl, -⟩ | ⟨-, rfl, rfl, -⟩ |
      ⟨-, rfl, rfl, -⟩ <;> norm_num
  · exact ⟨"s1.ts", 0, 10, false, 0, 0, 0, by simp [c6playlist]⟩

end Packager
